import Mathlib

/-!
Verification of mig: driver registry, connection descriptors, result
materializer, row rendering, the interactive loop and the four commands.

A shallow embedding of `main.go` of the database migration utility, and of the
driver check and descriptor builder of its legacy variant `mig.go`.

Conventions of the embedding:

* a Go `string` is a Lean `String`; `==` on strings is equality;
* a Go `error` is an `Option String`: `none` is `nil`, `some msg` is
  `errors.New(msg)`;
* `fmt.Sprintf` is interpreted by `Sprintf` below for the two verbs the
  program uses (`%v` and `%s`);
* `int16` values are carried as `Int` (the program only prints the port).
-/

namespace Mig

/-! ## Go runtime pieces used by the program -/

/-- Go `error`: `none` is `nil`, `some msg` is `errors.New(msg)`. -/
abbrev GoError := Option String

/-- Operand of a `fmt.Sprintf` call: the program passes strings and one `int16`. -/
inductive FmtArg where
  | str (s : String)
  | int (i : Int)

/-- Default (`%v`) formatting of an operand: a string is copied, an integer is
printed in decimal with a leading `-` when negative. -/
def formatArg : FmtArg → List Char
  | .str s => s.data
  | .int i => (toString i).data

/-- Interpreter of a format string: `%v` and `%s` consume the next operand,
every other character is copied. -/
def sprintfAux : List Char → List FmtArg → List Char
  | [], _ => []
  | '%' :: 'v' :: rest, a :: as => formatArg a ++ sprintfAux rest as
  | '%' :: 's' :: rest, a :: as => formatArg a ++ sprintfAux rest as
  | c :: rest, as => c :: sprintfAux rest as

/-- Go `fmt.Sprintf(format, args...)`. -/
def Sprintf (format : String) (args : List FmtArg) : String :=
  String.mk (sprintfAux format.data args)

/-! ## Driver registry (`main.go` lines 36-68) -/

/-- Type for storing available drivers. -/
structure availableDrivers where
  Driver : List String
  deriving DecidableEq, Repr

/-- Drivers variable for string driver values. -/
def appDrivers : availableDrivers := ⟨["sqlite3", "mysql", "postgres"]⟩

/-- The `for _, v := range appDrivers.Driver` loop of `CheckDriver`, followed by
the `errors.New` after it: the first match returns `nil`. -/
def checkDriverLoop (driver : String) : List String → GoError
  | [] => some ("driver: " ++ driver ++ " is not available.\n\n")
  | v :: rest => if driver = v then none else checkDriverLoop driver rest

/-- `CheckDriver` with the global registry passed explicitly: the returned pair
is the error and the registry after the call (the body never assigns to it). -/
def CheckDriverSt (reg : availableDrivers) (driver : String) : GoError × availableDrivers :=
  (checkDriverLoop driver reg.Driver, reg)

/-- CheckDriver checks driver from available drivers list. -/
def CheckDriver (driver : String) : GoError :=
  (CheckDriverSt appDrivers driver).1

/-! ## Connection descriptor builder (`main.go` lines 70-100, 125-139) -/

/-- Type for create command (the embedded `cli.Helper` carries no connection
data and is left out). -/
structure connT where
  Driver : String
  Host : String
  Protocol : String
  Port : Int
  Dbname : String
  User : String
  Password : String
  Charset : String
  Dbpath : String
  Table : String
  Sslmode : String

/-- BuildConn builds connection string. -/
def BuildConn (args : connT) (includeDatabaseName : Bool) : String × GoError :=
  if args.Driver = "mysql" then
    let includedDbName := if !includeDatabaseName then "" else args.Dbname
    (Sprintf "%v:%v@%v(%v:%v)/%v?charset=%v"
      [.str args.User, .str args.Password, .str args.Protocol, .str args.Host,
       .int args.Port, .str includedDbName, .str args.Charset], none)
  else if args.Driver = "postgres" then
    (Sprintf "host=%s user=%s password=%s sslmode=%v"
      [.str args.Host, .str args.User, .str args.Password, .str args.Sslmode], none)
  else if args.Driver = "sqlite3" then
    (Sprintf "%v%v.db" [.str args.Dbpath, .str args.Dbname], none)
  else
    ("", some "build connection was ignored")

/-- The record built by `TestBuildConn`: unset fields are Go zero values. -/
def testArgs : connT :=
  { Driver := "mysql", Host := "127.0.0.1", Protocol := "", Port := 3306,
    Dbname := "db_new", User := "root", Password := "123", Charset := "utf8",
    Dbpath := "", Table := "", Sslmode := "" }

/-- The spec's concrete mysql record: `testArgs` with the protocol `tcp`. -/
def specArgs : connT := { testArgs with Protocol := "tcp" }

/-- The spec's concrete embedded record: path `./`, database name `test`. -/
def sqliteArgs : connT :=
  { Driver := "sqlite3", Host := "127.0.0.1", Protocol := "tcp", Port := 3306,
    Dbname := "test", User := "", Password := "", Charset := "utf8",
    Dbpath := "./", Table := "scheme_info", Sslmode := "disable" }

/-- A postgres record with the documented defaults. -/
def pgArgs : connT :=
  { Driver := "postgres", Host := "127.0.0.1", Protocol := "tcp", Port := 3306,
    Dbname := "db_new", User := "root", Password := "123", Charset := "utf8",
    Dbpath := "./", Table := "scheme_info", Sslmode := "disable" }

/-! ## Result materializer (`main.go` lines 547-588) -/

/-- Ways a run of the model can stop without the Go function returning: a
run-time panic of an index expression, or the step budget of a loop model
running out. -/
inductive Fault where
  | indexOutOfRange
  | outOfFuel
  deriving DecidableEq, Repr

/-- Go `sql.RawBytes`: a byte sequence, carried like a Go string. -/
abbrev RawBytes := String

/-- Go conversion `string(b)` of a byte slice: the bytes are copied unchanged. -/
def rawBytesToString (b : RawBytes) : String := b

/-- Cursor `*sql.Rows` as the program sees it: `columns` is the answer of
`rows.Columns()` (`none` when it returns an error), `pending` the rows that the
following `rows.Next()` calls deliver, in order. -/
structure Rows where
  columns : Option (List String)
  pending : List (List RawBytes)
  deriving DecidableEq, Repr

/-- Go `rows.Scan(dest...)` on the current row `lastcols`, every destination
being a `*sql.RawBytes`: with as many destinations as columns each destination
receives its column, otherwise nothing is written and an error is returned. -/
def Scan (lastcols : List RawBytes) (dest : List RawBytes) : List RawBytes × GoError :=
  if dest.length ≠ lastcols.length then
    (dest, some ("sql: expected " ++ toString lastcols.length
      ++ " destination arguments in Scan, not " ++ toString dest.length))
  else
    (lastcols, none)

/-- ResultHolder for a query result as an array of raw bytes: one fresh (empty)
`sql.RawBytes` per column, no holder when the column fetch fails. -/
def ResultHolder (rows : Rows) : List RawBytes :=
  match rows.columns with
  | none => []
  | some cols => List.replicate cols.length ""

/-- RawResult type: a Go `map[string]string`, kept as the list of its entries
(each key at most once). -/
abbrev RawResult := List (String × String)

/-- Go map assignment `m[k] = v`: an existing key gets the new value, a new key
gets a new entry. -/
def mapSet : RawResult → String → String → RawResult
  | [], k, v => [(k, v)]
  | (k1, v1) :: rest, k, v =>
    if k1 = k then (k, v) :: rest else (k1, v1) :: mapSet rest k v

/-- Go map read `m[k]` with the presence flag: `none` when the key is absent. -/
def mapGet (m : RawResult) (k : String) : Option String :=
  m.lookup k

/-- Keys of a Go map. -/
def mapKeys (m : RawResult) : List String :=
  m.map Prod.fst

/-- Inner loop of `RawResultMap`, from index `i` on:
`for i, v := range result { resultMap[cols[i]] = string((*f)[:]) }`;
`cols[i]` past the end of `cols` is a run-time panic. -/
def fillResultMap (cols : List String) : Nat → List RawBytes → RawResult → Except Fault RawResult
  | _, [], resultMap => .ok resultMap
  | i, v :: rest, resultMap =>
    match cols[i]? with
    | none => .error Fault.indexOutOfRange
    | some name => fillResultMap cols (i + 1) rest (mapSet resultMap name (rawBytesToString v))

/-- Outer loop of `RawResultMap`, `for rows.Next() { ... }`, over the rows the
cursor still delivers; `result` holds the values of the last successful `Scan`
(its error is discarded by the program), `results` the rows appended so far. The
counter `c` of the source is never read and is left out. -/
def rowsLoop (cols : List String) :
    List (List RawBytes) → List RawBytes → List RawResult → Except Fault (List RawResult)
  | [], _, results => .ok results
  | row :: pending, result, results =>
    let scanned := (Scan row result).1
    match fillResultMap cols 0 scanned [] with
    | .error e => .error e
    | .ok resultMap => rowsLoop cols pending scanned (results ++ [resultMap])

/-- `RawResultMap` together with the cursor it leaves behind: the rows it read
are consumed. -/
def RawResultMapSt (rows : Rows) : Except Fault (List RawResult × Rows) :=
  match rows.columns with
  | none => .ok ([], rows)
  | some cols =>
    match rowsLoop cols rows.pending (ResultHolder rows) [] with
    | .error e => .error e
    | .ok results => .ok (results, { rows with pending := [] })

/-- RawResultMap queries results row for each row as a map of column to raw
bytes. -/
def RawResultMap (rows : Rows) : Except Fault (List RawResult) :=
  match RawResultMapSt rows with
  | .error e => .error e
  | .ok (results, _) => .ok results

/-- The spec's cursor: columns `id`, `name` and the single row `1`, `a`. -/
def specRows : Rows := { columns := some ["id", "name"], pending := [["1", "a"]] }

/-! ## Rendering of a result set (`main.go` lines 402-428 and 507-531) -/

/-- Colour helpers returned by `ctx.Color()` of the `cli` library: each wraps a
text in terminal escape codes (or returns it unchanged when colours are off). -/
structure Color where
  Red : String → String
  Bold : String → String
  Cyan : String → String
  Dim : String → String
  Green : String → String
  White : String → String
  Grey : String → String

/-- Colour helpers of a terminal without colours: every helper is the identity. -/
def plainColor : Color :=
  { Red := id, Bold := id, Cyan := id, Dim := id, Green := id, White := id, Grey := id }

/-- Go's `a <= b` on strings: lexicographic by byte, which on well-formed UTF-8
is lexicographic by character code. -/
def stringLE (a b : String) : Prop := a.data ≤ b.data

instance stringLE.decidable : DecidableRel stringLE :=
  fun a b => inferInstanceAs (Decidable (a.data ≤ b.data))

/-- Go `sort.Strings(keys)`: the keys in increasing order. -/
def sortStrings (keys : List String) : List String :=
  keys.insertionSort stringLE

/-- The loop `for ak := range v { keys = append(keys, ak) }`, the map being
visited in the order `visit`. -/
def collectKeys (visit : List (String × String)) : List String :=
  visit.foldl (fun keys e => keys ++ [e.1]) []

/-- The loop `for akk, avv := range v { if akk == av { ctx.String(...) } }` for
one sorted key `av`, the map being visited in the order `visit`; the value is
the list of texts handed to `ctx.String`. -/
def columnLine (color : Color) (av : String) (visit : List (String × String)) : List String :=
  visit.filterMap (fun e =>
    if e.1 = av then some ("  " ++ color.Grey e.1 ++ ": " ++ e.2 ++ "\n") else none)

/-- The loop `for _, av := range keys { ... }`: the `n`-th pass over the map
visits it in the order `visits n`. -/
def columnLines (color : Color) (visits : Nat → List (String × String)) :
    Nat → List String → List String
  | _, [] => []
  | n, av :: keys => columnLine color av (visits n) ++ columnLines color visits (n + 1) keys

/-- Body of `for k, v := range rrm` in `describe` and `sql` (the two copies are
identical): header, one line per column, closing brace, then the count after the
last row or a separator. `keyVisit` and `visits` are the orders in which the
`range` loops over the row's map visit its entries. -/
def renderRow (color : Color) (k rrmLen : Nat) (keyVisit : List (String × String))
    (visits : Nat → List (String × String)) : List String :=
  let kk := Sprintf "%v/%v" [.int (k + 1), .int rrmLen]
  let keys := sortStrings (collectKeys keyVisit)
  [color.White "\x7b " ++ color.Grey kk ++ "\n"]
    ++ columnLines color visits 0 keys
    ++ ["\x7d"]
    ++ (if rrmLen = k + 1 then
          ["\n\n", "Fetched " ++ color.Bold (Sprintf "%v" [.int rrmLen]) ++ " result(s).\n"]
        else [",\n"])

/-- Iteration order of Go maps, which the language leaves unspecified:
`range v n` is the order in which the `n`-th `range` loop over the map `v`
visits its entries. -/
abbrev MapRange := RawResult → Nat → List (String × String)

/-- The loop `for k, v := range rrm` from row index `k` on. -/
def renderRowsFrom (color : Color) (range : MapRange) (rrmLen : Nat) :
    Nat → List RawResult → List String
  | _, [] => []
  | k, v :: rest =>
    renderRow color k rrmLen (range v 0) (fun n => range v (n + 1))
      ++ renderRowsFrom color range rrmLen (k + 1) rest

/-- The rendering loop over a whole result set. -/
def renderRows (color : Color) (range : MapRange) (rrm : List RawResult) : List String :=
  renderRowsFrom color range rrm.length 0 rrm

/-- The line the rendering prints for the column `name` of the row `v`. -/
def columnText (color : Color) (v : RawResult) (name : String) : String :=
  "  " ++ color.Grey name ++ ": " ++ (mapGet v name).getD "" ++ "\n"

/-- The texts the rendering prints for the row `v` at index `k` of a result set
of `rrmLen` rows, as the specification words them: the header, one line per
column in ascending order of the column names, the closing brace, and the count
after the last row or a separator after any other. -/
def renderedRow (color : Color) (k rrmLen : Nat) (v : RawResult) : List String :=
  [color.White "\x7b " ++ color.Grey (Sprintf "%v/%v" [.int (k + 1), .int rrmLen]) ++ "\n"]
    ++ (sortStrings (mapKeys v)).map (columnText color v)
    ++ ["\x7d"]
    ++ (if rrmLen = k + 1 then
          ["\n\n", "Fetched " ++ color.Bold (Sprintf "%v" [.int rrmLen]) ++ " result(s).\n"]
        else [",\n"])

/-- A second row for examples, stored with the column `b` before the column `a`. -/
def otherRow : RawResult := [("b", "2"), ("a", "1")]

/-- The spec's row with the column `name` stored before the column `id`. -/
def specRow : RawResult := [("name", "a"), ("id", "1")]

/-! ## Interactive loop of the `sql` command (`main.go` lines 478-537) -/

/-- Go `unicode.IsSpace`: the white space characters of Unicode. -/
def isSpace (c : Char) : Bool :=
  let n := c.toNat
  (9 ≤ n && n ≤ 13) || n == 32 || n == 0x85 || n == 0xA0 || n == 0x1680
    || (0x2000 ≤ n && n ≤ 0x200a) || n == 0x2028 || n == 0x2029 || n == 0x202f
    || n == 0x205f || n == 0x3000

/-- Go `strings.TrimSpace`: the text without leading and trailing white space. -/
def TrimSpace (s : String) : String :=
  String.mk ((s.data.dropWhile isSpace).reverse.dropWhile isSpace).reverse

/-- Effects of the commands on the outside world, in the order they happen. -/
inductive Event where
  | out (text : String)
  | opened (driver conn : String)
  | exec (statement : String)
  | query (statement : String)
  | closed
  | removed (path : String)
  deriving DecidableEq, Repr

/-- The statements handed to the session (`db.Exec` and `db.Query`) in a trace. -/
def statements (trace : List Event) : List String :=
  trace.filterMap (fun e =>
    match e with
    | .exec q => some q
    | .query q => some q
    | _ => none)

/-- The outside world of a command: the colour helpers, the iteration order of
maps, the clock, and the answers of the database driver and the file system,
each of which may depend on everything that happened before. -/
structure Env where
  color : Color
  range : MapRange
  elapsed : List Event → String
  openErr : List Event → String → String → GoError
  execErr : List Event → String → GoError
  queryRes : List Event → String → Except String Rows
  removeErr : List Event → String → GoError

/-- Go `reader.ReadString` on standard input with the delimiter newline, the
error dropped as the program does: `stdin` lists the texts the coming calls
return; at the end of the input every call returns the empty text. -/
def readString : List String → String × List String
  | [] => ("", [])
  | line :: rest => (line, rest)

/-- The termination tokens of the interactive loop. -/
def isSentinel (text : String) : Prop :=
  text = "q" ∨ text = "exit" ∨ text = "\\q" ∨ text = "/q" ∨ text = ".exit"

instance isSentinel.decidable (text : String) : Decidable (isSentinel text) := by
  unfold isSentinel
  infer_instance

/-- The loop `for text != "q" { ... }` of the `sql` command, run for at most
`fuel` iterations on the input `stdin` after the events `trace`; the result is
the trace and the unread input when the loop is left. The variable tested by the
loop condition is the outer `text`, which stays empty: the body declares its own
`text` with `:=`. -/
def sqlLoop (env : Env) (driver : String) :
    Nat → List String → List Event → Except Fault (List Event × List String)
  | 0, _, _ => .error Fault.outOfFuel
  | fuel + 1, stdin, trace =>
    if ("" : String) = "q" then .ok (trace, stdin)
    else
      let trace1 := trace ++ [Event.out (env.color.Bold driver ++ "> ")]
      let line := (readString stdin).1
      let stdin1 := (readString stdin).2
      let text := TrimSpace line
      if isSentinel text then .ok (trace1, stdin1)
      else
        let query := Sprintf "%v" [.str text]
        let trace2 := trace1 ++ [Event.query query]
        match env.queryRes trace1 query with
        | .error err =>
          sqlLoop env driver fuel stdin1
            (trace2 ++ [Event.out "\n", Event.out (env.color.Red err ++ "\n")])
        | .ok ret =>
          match RawResultMap ret with
          | .error f => .error f
          | .ok rrm =>
            let elapsed := Sprintf "%v" [.str (env.elapsed trace2)]
            sqlLoop env driver fuel stdin1
              (trace2 ++ (if rrm.length > 0 then [Event.out "\n"] else [])
                ++ (renderRows env.color env.range rrm).map Event.out
                ++ [Event.out ("\n" ++ env.color.Green "DONE" ++ " "
                      ++ env.color.Dim ("(" ++ elapsed ++ ")") ++ "\n")])

/-- A world for examples: no colours, maps visited in storage order, a fixed
clock reading, and a database that rejects statements containing no text and
answers every other one with the spec's cursor. -/
def plainEnv : Env :=
  { color := plainColor
    range := fun v _ => v
    elapsed := fun _ => "1ms"
    openErr := fun _ _ _ => none
    execErr := fun _ _ => none
    queryRes := fun _ q => if q = "" then .error "empty query" else .ok specRows
    removeErr := fun _ _ => none }

/-! ## Display of the driver list (`main.go` lines 44-58) -/

/-- The loop `for i, v := range appDrivers.Driver` of `Output`, from index `i`
on: the name is appended, then the separator unless `i` equals
`availableDriversAmount` (the length minus one, a Go `int`). -/
def outputLoop (sep : String) (availableDriversAmount : Int) :
    Nat → List String → String → String
  | _, [], availableDriversOutput => availableDriversOutput
  | i, v :: rest, availableDriversOutput =>
    let out1 := availableDriversOutput ++ v
    let out2 := if availableDriversAmount ≠ (i : Int) then out1 ++ sep else out1
    outputLoop sep availableDriversAmount (i + 1) rest out2

/-- Output method to show available drivers. -/
def availableDrivers.Output (drivers : availableDrivers) (list : Bool) : String :=
  let sep := if list then "\n" else ", "
  let availableDriversAmount : Int := (drivers.Driver.length : Int) - 1
  outputLoop sep availableDriversAmount 0 drivers.Driver ""

/-- The names joined in list order with `sep` between each two consecutive
names, as the specification words the display string. -/
def joinWith (sep : String) : List String → String
  | [] => ""
  | [name] => name
  | name :: next :: rest => name ++ sep ++ joinWith sep (next :: rest)

/-! ## The legacy variant (`mig.go` lines 36-92, 115-128) -/

/-- Type for create command in `mig.go`: the record of `main.go` without the
SSL mode. -/
structure Legacy.connT where
  Driver : String
  Host : String
  Protocol : String
  Port : Int
  Dbname : String
  User : String
  Password : String
  Charset : String
  Dbpath : String
  Table : String

/-- The legacy record holding the fields of a record of `main.go`. -/
def toLegacy (args : connT) : Legacy.connT :=
  { Driver := args.Driver, Host := args.Host, Protocol := args.Protocol, Port := args.Port,
    Dbname := args.Dbname, User := args.User, Password := args.Password,
    Charset := args.Charset, Dbpath := args.Dbpath, Table := args.Table }

/-- Drivers variable of `mig.go`. -/
def Legacy.appDrivers : availableDrivers := ⟨["sqlite3", "mysql", "postgres"]⟩

/-- The range loop of the legacy `checkDriver` and the `errors.New` after it. -/
def Legacy.checkDriverLoop (driver : String) : List String → GoError
  | [] => some ("driver: " ++ driver ++ " is not available.\n\n")
  | v :: rest => if driver = v then none else Legacy.checkDriverLoop driver rest

/-- Checks driver from available drivers list (`mig.go`). -/
def Legacy.checkDriver (driver : String) : GoError :=
  Legacy.checkDriverLoop driver Legacy.appDrivers.Driver

/-- Builds connection string (`mig.go`); the results are in the order of the
source, the error first. -/
def Legacy.buildConn (args : Legacy.connT) (includeDatabaseName : Bool) : GoError × String :=
  if args.Driver = "mysql" then
    let includedDbName := if !includeDatabaseName then "" else args.Dbname
    (none, Sprintf "%v:%v@%v(%v:%v)/%v?charset=%v"
      [.str args.User, .str args.Password, .str args.Protocol, .str args.Host,
       .int args.Port, .str includedDbName, .str args.Charset])
  else if args.Driver = "sqlite3" then
    (none, Sprintf "%v%v.db" [.str args.Dbpath, .str args.Dbname])
  else
    (some "build connection was ignored", "")

/-- A cursor whose column fetch fails while rows are pending. -/
def brokenRows : Rows := { columns := none, pending := [["1", "a"], ["2", "b"]] }

/-! ## Command operations (`main.go` lines 141-542) -/

/-- Common phrase `AppAvailableDrivers`. -/
def AppAvailableDrivers : String := "Available drivers"

/-- Common phrase `AppConnQuery`. -/
def AppConnQuery : String := "Connection query:"

/-- Common phrase `AppSQLExec`. -/
def AppSQLExec : String := "SQL:"

/-- Common phrase `AppResult`. -/
def AppResult : String := "Result:"

/-- State of a running command function: the events so far and the calls
registered with `defer`, the last registered first. An `opened` event is a
`sql.Open` that returned a handle, a `removed` event an `os.Remove` that
succeeded; `exec` and `query` events are recorded when the statement is handed
to the session, whatever the answer. -/
structure Run where
  trace : List Event
  deferred : List Event

/-- Control after a block of a command function: it goes on with the next
statement, or the function has executed `return err`. -/
inductive Flow where
  | next (r : Run)
  | ret (r : Run) (err : GoError)

/-- Sequencing: the rest of the function runs only when the block did not return. -/
def Flow.andThen (f : Flow) (rest : Run → Flow) : Flow :=
  match f with
  | .next r => rest r
  | .ret r err => .ret r err

/-- The call `ctx.String(text)`. -/
def Run.say (r : Run) (text : String) : Run :=
  { r with trace := r.trace ++ [Event.out text] }

/-- Function return with the result `err`: the deferred calls run, the last
registered first. -/
def Run.finish (r : Run) (err : GoError) : List Event × GoError :=
  (r.trace ++ r.deferred, err)

/-- The text of the closing `ctx.String` of a command: `DONE` and the elapsed
time `fmt.Sprintf("%v", time.Since(start))`. -/
def doneText (env : Env) (trace : List Event) : String :=
  "\n" ++ env.color.Green "DONE" ++ " "
    ++ env.color.Dim ("(" ++ Sprintf "%v" [.str (env.elapsed trace)] ++ ")") ++ "\n"

/-- The statements `db, err := sql.Open(driver, conn)`,
`if err != nil { ctx.String(Red(err.Error())); return nil }`, `defer db.Close()`. -/
def openOrReturn (env : Env) (driver conn : String) (r : Run) : Flow :=
  match env.openErr r.trace driver conn with
  | some err => .ret (r.say (env.color.Red err)) none
  | none =>
    .next { trace := r.trace ++ [Event.opened driver conn],
            deferred := Event.closed :: r.deferred }

/-- The statements `_, err = db.Exec(query)`,
`if err != nil { ctx.String("\n"); ctx.String(Red(err.Error()) + "\n"); return nil }`. -/
def execOrReturn (env : Env) (query : String) (r : Run) : Flow :=
  match env.execErr r.trace query with
  | some err =>
    .ret (({ r with trace := r.trace ++ [Event.exec query] }.say "\n").say
      (env.color.Red err ++ "\n")) none
  | none => .next { r with trace := r.trace ++ [Event.exec query] }

/-- The block `if argv.Driver == "mysql" { ... }` of `create`. -/
def createMysql (env : Env) (argv : connT) (conn : String) (r : Run) : Flow :=
  if argv.Driver = "mysql" then
    (openOrReturn env argv.Driver conn (r.say "\n")).andThen fun r1 =>
      let r2 := r1.say (env.color.Bold AppSQLExec ++ "\n")
      let query := Sprintf "CREATE DATABASE %s CHARACTER SET %s"
        [.str argv.Dbname, .str argv.Charset]
      (execOrReturn env query (r2.say (env.color.Cyan (query ++ ";") ++ "\n"))).andThen fun r3 =>
        let query2 := Sprintf "USE %s" [.str argv.Dbname]
        execOrReturn env query2 (r3.say (env.color.Cyan (query2 ++ ";") ++ "\n"))
  else .next r

/-- The block `if argv.Driver == "postgres" { ... }` of `create`; `ToUpper` is
Go's `strings.ToUpper`. -/
def createPostgres (env : Env) (ToUpper : String → String) (argv : connT) (conn : String)
    (r : Run) : Flow :=
  if argv.Driver = "postgres" then
    (openOrReturn env argv.Driver conn (r.say "\n")).andThen fun r1 =>
      let r2 := r1.say (env.color.Bold AppSQLExec ++ "\n")
      let query := Sprintf "CREATE DATABASE %s OWNER %s ENCODING '%s'"
        [.str argv.Dbname, .str argv.User, .str (ToUpper argv.Charset)]
      execOrReturn env query (r2.say (env.color.Cyan (query ++ ";") ++ "\n"))
  else .next r

/-- The block `if argv.Driver == "sqlite3" { ... }` of `create`. -/
def createSqlite (env : Env) (argv : connT) (conn : String) (r : Run) : Flow :=
  if argv.Driver = "sqlite3" then openOrReturn env argv.Driver conn r
  else .next r

/-- The steps shared by the four commands after `ctx.String("\n")`: on a driver
that `CheckDriver` rejects the error and the driver list are printed and the
function returns `nil`; on a `BuildConn` error the function returns it through
`fmt.Errorf`; otherwise the function goes on with the descriptor. -/
def validate (env : Env) (argv : connT) (includeDatabaseName : Bool) (r : Run) :
    (List Event × GoError) ⊕ (Run × String) :=
  match CheckDriver argv.Driver with
  | some err =>
    .inl (((r.say (env.color.Red err)).say
      (AppAvailableDrivers ++ ": " ++ appDrivers.Output false ++ "\n")).finish none)
  | none =>
    let r1 := r.say (env.color.Bold AppConnQuery ++ "\n")
    match (BuildConn argv includeDatabaseName).2 with
    | some err => .inl (r1.finish (some (Sprintf err [])))
    | none => .inr (r1, (BuildConn argv includeDatabaseName).1)

/-- Create command builds connection and tries to create database: the
function `Fn` of `createCom`, started after the events `trace`. -/
def createCom (env : Env) (ToUpper : String → String) (argv : connT) (trace : List Event) :
    List Event × GoError :=
  if argv.Dbname.length ≠ 0 then
    match validate env argv false { trace := trace ++ [Event.out "\n"], deferred := [] } with
    | .inl result => result
    | .inr (r1, conn) =>
      let r2 := r1.say (env.color.Dim conn ++ "\n")
      match ((createMysql env argv conn r2).andThen
          (createPostgres env ToUpper argv conn)).andThen (createSqlite env argv conn) with
      | .ret r err => r.finish err
      | .next r => (r.say (doneText env r.trace)).finish none
  else (trace, none)

/-- The blocks `if argv.Driver == "mysql" { ... }` and
`if argv.Driver == "postgres" { ... }` of `drop`, which have the same body. -/
def dropStatement (env : Env) (driver : String) (argv : connT) (r : Run) : Flow :=
  if argv.Driver = driver then
    let r1 := r.say (env.color.Bold AppSQLExec ++ "\n")
    let query := Sprintf "DROP DATABASE %s" [.str argv.Dbname]
    execOrReturn env query (r1.say (env.color.Cyan (query ++ ";") ++ "\n"))
  else .next r

/-- The block `if argv.Driver == "sqlite3" { err = os.Remove(conn) ... }` of
`drop`. -/
def dropSqlite (env : Env) (argv : connT) (conn : String) (r : Run) : Flow :=
  if argv.Driver = "sqlite3" then
    match env.removeErr r.trace conn with
    | some err => .ret ((r.say "\n").say (env.color.Red err ++ "\n")) none
    | none => .next { r with trace := r.trace ++ [Event.removed conn] }
  else .next r

/-- Drop command builds connection and tries to drop database: the function
`Fn` of `dropCom`. -/
def dropCom (env : Env) (argv : connT) (trace : List Event) : List Event × GoError :=
  if argv.Dbname.length ≠ 0 then
    match validate env argv false { trace := trace ++ [Event.out "\n"], deferred := [] } with
    | .inl result => result
    | .inr (r1, conn) =>
      let r2 := r1.say (env.color.Dim conn ++ "\n\n")
      match (((openOrReturn env argv.Driver conn r2).andThen
          (dropStatement env "mysql" argv)).andThen
          (dropStatement env "postgres" argv)).andThen (dropSqlite env argv conn) with
      | .ret r err => r.finish err
      | .next r => (r.say (doneText env r.trace)).finish none
  else (trace, none)

/-- Ways `describe` can stop without returning: a fault of the materializer, or
the nil cursor being dereferenced when no block assigned `ret`. -/
inductive CmdFault where
  | fault (f : Fault)
  | nilRows
  deriving DecidableEq, Repr

/-- The statements `ret, err = db.Query(query)`,
`if err != nil { ctx.String("\n"); ctx.String(Red(err.Error()) + "\n"); return nil }`;
the second component is the new value of `ret`. -/
def queryOrReturn (env : Env) (query : String) (r : Run) (ret : Option Rows) :
    Flow × Option Rows :=
  match env.queryRes r.trace query with
  | .error err =>
    (.ret (({ r with trace := r.trace ++ [Event.query query] }.say "\n").say
      (env.color.Red err ++ "\n")) none, ret)
  | .ok rows => (.next { r with trace := r.trace ++ [Event.query query] }, some rows)

/-- The block `if argv.Driver == "mysql" || argv.Driver == "sqlite3" { ... }` of
`describe`. -/
def describeShort (env : Env) (argv : connT) (r : Run) (ret : Option Rows) :
    Flow × Option Rows :=
  if argv.Driver = "mysql" ∨ argv.Driver = "sqlite3" then
    let query := Sprintf "DESCRIBE %v" [.str argv.Table]
    queryOrReturn env query (r.say (env.color.Cyan (query ++ ";") ++ "\n")) ret
  else (.next r, ret)

/-- The block `if argv.Driver == "postgres" { ... }` of `describe`. -/
def describeCatalog (env : Env) (argv : connT) (r : Run) (ret : Option Rows) :
    Flow × Option Rows :=
  if argv.Driver = "postgres" then
    let query := Sprintf
      "SELECT attname FROM pg_attribute,pg_class WHERE attrelid=pg_class.oid AND relname='%v' AND attstattarget <> 0;"
      [.str argv.Table]
    queryOrReturn env query (r.say (env.color.Cyan (query ++ ";") ++ "\n")) ret
  else (.next r, ret)

/-- The end of `describe`, from `ctx.String("\n")` after the two query blocks:
the result set is materialized and rendered, then `DONE` is printed. -/
def describeRender (env : Env) (r : Run) (ret : Option Rows) :
    Except CmdFault (List Event × GoError) :=
  let r1 := (r.say "\n").say (env.color.Bold AppResult ++ "\n")
  match ret with
  | none => .error CmdFault.nilRows
  | some rows =>
    match RawResultMap rows with
    | .error f => .error (CmdFault.fault f)
    | .ok rrm =>
      let r2 : Run :=
        { r1 with trace := r1.trace ++ (renderRows env.color env.range rrm).map Event.out }
      .ok ((r2.say (doneText env r2.trace)).finish none)

/-- Describe command: the function `Fn` of `describeCom`. -/
def describeCom (env : Env) (argv : connT) (trace : List Event) :
    Except CmdFault (List Event × GoError) :=
  if argv.Dbname.length ≠ 0 then
    match validate env argv true { trace := trace ++ [Event.out "\n"], deferred := [] } with
    | .inl result => .ok result
    | .inr (r1, conn) =>
      let r2 := r1.say (env.color.Dim conn ++ "\n\n")
      match openOrReturn env argv.Driver conn r2 with
      | .ret r err => .ok (r.finish err)
      | .next r3 =>
        let r4 := r3.say (env.color.Bold AppSQLExec ++ "\n")
        match describeShort env argv r4 none with
        | (.ret r err, _) => .ok (r.finish err)
        | (.next r5, ret1) =>
          match describeCatalog env argv r5 ret1 with
          | (.ret r err, _) => .ok (r.finish err)
          | (.next r6, ret2) => describeRender env r6 ret2
  else .ok (trace, none)

/-- Sql command: the function `Fn` of `sqlCom`, the interactive loop running for
at most `fuel` iterations on the input `stdin`; the result is the trace, the
unread input and the returned error. -/
def sqlCom (env : Env) (argv : connT) (fuel : Nat) (stdin : List String)
    (trace : List Event) : Except Fault (List Event × List String × GoError) :=
  if argv.Dbname.length ≠ 0 then
    match validate env argv true { trace := trace ++ [Event.out "\n"], deferred := [] } with
    | .inl result => .ok (result.1, stdin, result.2)
    | .inr (r1, conn) =>
      let r2 := r1.say (env.color.Dim conn ++ "\n\n")
      match openOrReturn env argv.Driver conn r2 with
      | .ret r err => .ok ((r.finish err).1, stdin, err)
      | .next r3 =>
        match sqlLoop env argv.Driver fuel stdin r3.trace with
        | .error f => .error f
        | .ok (t, rest) => .ok (({ r3 with trace := t }.finish none).1, rest, none)
  else .ok (trace, stdin, none)

/-- The trace of `create`, started after `trace` with an accepted driver, at the
moment of its `sql.Open` call: the newline, the connection-query header and the
descriptor have been printed, and the mysql and postgres blocks have printed one
more newline. -/
def createAtOpen (env : Env) (argv : connT) (trace : List Event) : List Event :=
  trace ++ [Event.out "\n", Event.out (env.color.Bold AppConnQuery ++ "\n"),
    Event.out (env.color.Dim (BuildConn argv false).1 ++ "\n")]
    ++ (if argv.Driver = "sqlite3" then [] else [Event.out "\n"])

/-- The trace of `create` at the moment of its first `db.Exec` call, the
statement being `query`: the session is open, the header `SQL:` and the
statement have been printed. -/
def createAtExec (env : Env) (argv : connT) (trace : List Event) (query : String) :
    List Event :=
  createAtOpen env argv trace
    ++ [Event.opened argv.Driver (BuildConn argv false).1,
        Event.out (env.color.Bold AppSQLExec ++ "\n"),
        Event.out (env.color.Cyan (query ++ ";") ++ "\n")]

/-! ## Reading a trace -/

/-- The events a command added to the trace it started from. -/
def newEvents (before after : List Event) : List Event :=
  after.drop before.length

/-- Number of sessions open after the events, starting from `n` open sessions:
`opened` adds one, `closed` takes one away; `none` when a `closed` event happens
with no session open. -/
def sessionsOpenFrom : Nat → List Event → Option Nat
  | n, [] => some n
  | n, Event.opened _ _ :: rest => sessionsOpenFrom (n + 1) rest
  | 0, Event.closed :: _ => none
  | n + 1, Event.closed :: rest => sessionsOpenFrom n rest
  | n, Event.out _ :: rest => sessionsOpenFrom n rest
  | n, Event.exec _ :: rest => sessionsOpenFrom n rest
  | n, Event.query _ :: rest => sessionsOpenFrom n rest
  | n, Event.removed _ :: rest => sessionsOpenFrom n rest

/-- Number of sessions opened in a trace. -/
def countOpened (events : List Event) : Nat :=
  (events.filter (fun e => match e with | .opened _ _ => true | _ => false)).length

/-- Number of `Close` calls in a trace. -/
def countClosed (events : List Event) : Nat :=
  (events.filter (fun e => match e with | .closed => true | _ => false)).length

/-- Number of files removed in a trace. -/
def countRemoved (events : List Event) : Nat :=
  (events.filter (fun e => match e with | .removed _ => true | _ => false)).length

/-- Events that open or close a session. -/
def isSessionEvent (e : Event) : Bool :=
  match e with
  | .opened _ _ => true
  | .closed => true
  | _ => false

/-- The trace `after` is the trace `before` followed by events that neither
open nor close a session. -/
def extendsNeutrally (before after : List Event) : Prop :=
  ∃ xs, after = before ++ xs ∧ ∀ e ∈ xs, isSessionEvent e = false

/-- The session discipline of a command that started from the trace `before`
and returned with the trace `after`: among the events it added every `closed`
follows an `opened` that was still open, no session is left open, as many
sessions were closed as were opened, and at most one was opened. -/
def sessionsClosed (before after : List Event) : Prop :=
  sessionsOpenFrom 0 (newEvents before after) = some 0 ∧
  countClosed (newEvents before after) = countOpened (newEvents before after) ∧
  countOpened (newEvents before after) ≤ 1

/-- Invariant of a running command that started from the trace `base`: it has
opened `k` sessions, all still open, and has one deferred `Close` per session. -/
def SessionInv (base : List Event) (k : Nat) (r : Run) : Prop :=
  ∃ ev, r.trace = base ++ ev ∧ r.deferred = List.replicate k Event.closed ∧
    sessionsOpenFrom 0 ev = some k ∧ countOpened ev = k ∧ countClosed ev = 0

/-- The invariant after a block, on either way out of it, with at most `K`
sessions opened. -/
def FlowInv (base : List Event) (K : Nat) (f : Flow) : Prop :=
  match f with
  | .next r => ∃ k, k ≤ K ∧ SessionInv base k r
  | .ret r _ => ∃ k, k ≤ K ∧ SessionInv base k r

/-- Upper-casing of the ASCII letters, which is what Go's `strings.ToUpper`
does on ASCII text. -/
def asciiUpper (s : String) : String :=
  String.mk (s.data.map Char.toUpper)

/-- A world whose `CREATE DATABASE` statements fail, otherwise like `plainEnv`. -/
def existsEnv : Env :=
  { plainEnv with
    execErr := fun _ q => if q.data.take 6 = "CREATE".data then some "database exists" else none }

/-- What a command prints when `CheckDriver` rejects the driver with the message
`msg`: the newline it starts with, the message, the list of available drivers. -/
def rejectionReport (env : Env) (msg : String) : List Event :=
  [Event.out "\n", Event.out (env.color.Red msg),
   Event.out "Available drivers: sqlite3, mysql, postgres\n"]

/-- A record that `CheckDriver` rejects. -/
def oracleArgs : connT := { specArgs with Driver := "oracle" }

/-! ## Theorems -/

theorem checkDriverLoop_eq_none_iff (driver : String) (l : List String) :
    checkDriverLoop driver l = none ↔ driver ∈ l := by
  induction l with
  | nil => simp [checkDriverLoop]
  | cons v rest ih =>
    by_cases h : driver = v
    · simp [checkDriverLoop, h]
    · simp [checkDriverLoop, h, ih]

theorem checkDriverLoop_of_not_mem (driver : String) (l : List String) (h : driver ∉ l) :
    checkDriverLoop driver l = some ("driver: " ++ driver ++ " is not available.\n\n") := by
  induction l with
  | nil => simp [checkDriverLoop]
  | cons v rest ih =>
    simp only [List.mem_cons, not_or] at h
    simp [checkDriverLoop, h.1, ih h.2]

theorem CheckDriver_eq_none_iff (d : String) :
    CheckDriver d = none ↔ (d = "sqlite3" ∨ d = "mysql" ∨ d = "postgres") := by
  simp [CheckDriver, CheckDriverSt, appDrivers, checkDriverLoop_eq_none_iff]

theorem BuildConn_mysql (args : connT) (flag : Bool) (h : args.Driver = "mysql") :
    BuildConn args flag =
      (args.User ++ ":" ++ args.Password ++ "@" ++ args.Protocol ++ "(" ++ args.Host ++ ":"
        ++ toString args.Port ++ ")/" ++ (if flag then args.Dbname else "")
        ++ "?charset=" ++ args.Charset, none) := by
  cases flag <;>
  · simp only [BuildConn, h, if_true]
    refine Prod.ext ?_ rfl
    apply String.ext
    simp [Sprintf, sprintfAux, formatArg]

/-- C1: `CheckDriver(d)` returns `nil` exactly when `d` is one of the registered
identifiers `sqlite3`, `mysql`, `postgres`; every other string gets a non-nil
error, as the four assertions of `TestCheckDriver` check. -/
theorem C1_CheckDriver_nil_iff_registered (d : String) :
    (CheckDriver d = none ↔ (d = "sqlite3" ∨ d = "mysql" ∨ d = "postgres")) ∧
    ((CheckDriver d).isSome = true ↔ ¬ (d = "sqlite3" ∨ d = "mysql" ∨ d = "postgres")) ∧
    CheckDriver "mysql" = none ∧ CheckDriver "sqlite3" = none ∧
    CheckDriver "postgres" = none ∧ (CheckDriver "invalid_driver").isSome = true := by
  refine ⟨CheckDriver_eq_none_iff d, ?_, by decide, by decide, by decide, by decide⟩
  rw [← CheckDriver_eq_none_iff d]
  cases CheckDriver d <;> simp

/-- C2: for a record with `Driver = "mysql"`, `BuildConn(args, true)` returns no
error and the descriptor `User:Password@Protocol(Host:Port)/Dbname?charset=Charset`
with the port in decimal; the spec's record gives
`root:123@tcp(127.0.0.1:3306)/db_new?charset=utf8` and the test's record (empty
protocol) gives `root:123@(127.0.0.1:3306)/db_new?charset=utf8`. -/
theorem C2_BuildConn_mysql_with_dbname (args : connT) (h : args.Driver = "mysql") :
    BuildConn args true =
      (args.User ++ ":" ++ args.Password ++ "@" ++ args.Protocol ++ "(" ++ args.Host ++ ":"
        ++ toString args.Port ++ ")/" ++ args.Dbname ++ "?charset=" ++ args.Charset, none) ∧
    BuildConn specArgs true = ("root:123@tcp(127.0.0.1:3306)/db_new?charset=utf8", none) ∧
    BuildConn testArgs true = ("root:123@(127.0.0.1:3306)/db_new?charset=utf8", none) := by
  refine ⟨?_, by decide, by decide⟩
  rw [BuildConn_mysql args true h]
  simp

/-- Witness of C2 at the record of `TestBuildConn`. -/
theorem C2_BuildConn_mysql_with_dbname_witness :
    testArgs.Driver = "mysql" ∧
    BuildConn testArgs true =
      (testArgs.User ++ ":" ++ testArgs.Password ++ "@" ++ testArgs.Protocol ++ "("
        ++ testArgs.Host ++ ":" ++ toString testArgs.Port ++ ")/" ++ testArgs.Dbname
        ++ "?charset=" ++ testArgs.Charset, none) :=
  ⟨rfl, (C2_BuildConn_mysql_with_dbname testArgs rfl).1⟩

/-- C3: for a record with `Driver = "mysql"`, `BuildConn(args, false)` leaves the
database-name segment empty: the descriptor is
`User:Password@Protocol(Host:Port)/?charset=Charset`, the same as
`BuildConn` with the flag set on the record whose `Dbname` is empty; for the
spec's record it is `root:123@tcp(127.0.0.1:3306)/?charset=utf8` whatever
`Dbname` holds. -/
theorem C3_BuildConn_mysql_without_dbname (args : connT) (h : args.Driver = "mysql") :
    BuildConn args false =
      (args.User ++ ":" ++ args.Password ++ "@" ++ args.Protocol ++ "(" ++ args.Host ++ ":"
        ++ toString args.Port ++ ")/" ++ "?charset=" ++ args.Charset, none) ∧
    BuildConn args false = BuildConn { args with Dbname := "" } true ∧
    (∀ db : String, BuildConn { specArgs with Dbname := db } false =
      ("root:123@tcp(127.0.0.1:3306)/?charset=utf8", none)) := by
  refine ⟨?_, ?_, ?_⟩
  · rw [BuildConn_mysql args false h]
    refine Prod.ext ?_ rfl
    apply String.ext
    simp
  · rw [BuildConn_mysql args false h, BuildConn_mysql { args with Dbname := "" } true h]
    refine Prod.ext ?_ rfl
    apply String.ext
    simp
  · intro db
    rw [BuildConn_mysql { specArgs with Dbname := db } false rfl]
    rfl

/-- Witness of C3 at the spec's mysql record. -/
theorem C3_BuildConn_mysql_without_dbname_witness :
    specArgs.Driver = "mysql" ∧
    BuildConn specArgs false = ("root:123@tcp(127.0.0.1:3306)/?charset=utf8", none) :=
  ⟨rfl, (C3_BuildConn_mysql_without_dbname specArgs rfl).2.2 "db_new"⟩

/-- C4: for a record with `Driver = "sqlite3"` and either value of the flag,
`BuildConn` returns no error and the descriptor `Dbpath ++ Dbname ++ ".db"`;
with path `./` and name `test` the descriptor is `./test.db`. -/
theorem C4_BuildConn_sqlite3 (args : connT) (flag : Bool) (h : args.Driver = "sqlite3") :
    BuildConn args flag = (args.Dbpath ++ args.Dbname ++ ".db", none) ∧
    BuildConn args true = BuildConn args false ∧
    BuildConn sqliteArgs flag = ("./test.db", none) := by
  have key : ∀ f : Bool, BuildConn args f = (args.Dbpath ++ args.Dbname ++ ".db", none) := by
    intro f
    simp only [BuildConn, h]
    refine Prod.ext ?_ rfl
    apply String.ext
    simp [Sprintf, sprintfAux, formatArg]
  refine ⟨key flag, by rw [key true, key false], ?_⟩
  cases flag <;> decide

/-- Witness of C4 at the spec's embedded record. -/
theorem C4_BuildConn_sqlite3_witness :
    sqliteArgs.Driver = "sqlite3" ∧
    BuildConn sqliteArgs false = (sqliteArgs.Dbpath ++ sqliteArgs.Dbname ++ ".db", none) :=
  ⟨rfl, (C4_BuildConn_sqlite3 sqliteArgs false rfl).1⟩

/-- C5: for a record with `Driver = "postgres"`, `BuildConn` returns no error and
the descriptor `host=Host user=User password=Password sslmode=Sslmode`; the
database name is never part of it: changing `Dbname` or the flag leaves the
descriptor unchanged. -/
theorem C5_BuildConn_postgres (args : connT) (flag : Bool) (h : args.Driver = "postgres") :
    BuildConn args flag =
      ("host=" ++ args.Host ++ " user=" ++ args.User ++ " password=" ++ args.Password
        ++ " sslmode=" ++ args.Sslmode, none) ∧
    (∀ (db : String) (flag2 : Bool),
      BuildConn { args with Dbname := db } flag2 = BuildConn args flag) := by
  have key : ∀ (a : connT) (f : Bool), a.Driver = "postgres" → BuildConn a f =
      ("host=" ++ a.Host ++ " user=" ++ a.User ++ " password=" ++ a.Password
        ++ " sslmode=" ++ a.Sslmode, none) := by
    intro a f ha
    simp only [BuildConn, ha]
    refine Prod.ext ?_ rfl
    apply String.ext
    simp [Sprintf, sprintfAux, formatArg]
  refine ⟨key args flag h, ?_⟩
  intro db flag2
  rw [key args flag h, key { args with Dbname := db } flag2 h]

/-- Witness of C5 at a postgres record with the documented defaults. -/
theorem C5_BuildConn_postgres_witness :
    pgArgs.Driver = "postgres" ∧
    BuildConn pgArgs true =
      ("host=127.0.0.1 user=root password=123 sslmode=disable", none) ∧
    BuildConn { pgArgs with Dbname := "other" } false = BuildConn pgArgs true :=
  ⟨rfl, by rw [(C5_BuildConn_postgres pgArgs true rfl).1]; decide,
    (C5_BuildConn_postgres pgArgs true rfl).2 "other" false⟩

/-- C6: `BuildConn` fails exactly on unknown backends: it returns the empty
descriptor with the error `build connection was ignored` if and only if `Driver`
is none of `mysql`, `postgres`, `sqlite3`, and it returns no error if and only
if `CheckDriver(Driver)` returns `nil`. -/
theorem C6_BuildConn_fails_iff_unregistered (args : connT) (flag : Bool) :
    (BuildConn args flag = ("", some "build connection was ignored") ↔
      ¬ (args.Driver = "mysql" ∨ args.Driver = "postgres" ∨ args.Driver = "sqlite3")) ∧
    ((BuildConn args flag).2 ≠ none ↔
      ¬ (args.Driver = "mysql" ∨ args.Driver = "postgres" ∨ args.Driver = "sqlite3")) ∧
    ((BuildConn args flag).2 = none ↔ CheckDriver args.Driver = none) := by
  rw [CheckDriver_eq_none_iff]
  by_cases h1 : args.Driver = "mysql"
  · simp [BuildConn, h1]
  · by_cases h2 : args.Driver = "postgres"
    · simp [BuildConn, h2]
    · by_cases h3 : args.Driver = "sqlite3"
      · simp [BuildConn, h3]
      · simp [BuildConn, h1, h2, h3]

/-- C7: for a string `d` outside the registered set the error of `CheckDriver(d)`
has the message `"driver: " + d + " is not available.\n\n"`, which names `d`
(for `oracle` the message is `driver: oracle is not available.` and two
newlines); and for every `d` and every registry value the registry after the
call equals the registry before it. -/
theorem C7_CheckDriver_error_names_driver (d : String) (reg : availableDrivers) :
    (¬ (d = "sqlite3" ∨ d = "mysql" ∨ d = "postgres") →
      CheckDriver d = some ("driver: " ++ d ++ " is not available.\n\n")) ∧
    CheckDriver "oracle" = some "driver: oracle is not available.\n\n" ∧
    (CheckDriverSt reg d).2 = reg ∧ (CheckDriverSt appDrivers d).2 = appDrivers := by
  refine ⟨?_, by decide, rfl, rfl⟩
  intro h
  have hmem : d ∉ appDrivers.Driver := by
    simpa [appDrivers] using h
  simpa [CheckDriver, CheckDriverSt] using checkDriverLoop_of_not_mem d appDrivers.Driver hmem

/-- Witness of C7 at the unregistered identifier `oracle`. -/
theorem C7_CheckDriver_error_names_driver_witness :
    ¬ ("oracle" = "sqlite3" ∨ "oracle" = "mysql" ∨ "oracle" = "postgres") ∧
    CheckDriver "oracle" = some ("driver: " ++ "oracle" ++ " is not available.\n\n") :=
  ⟨by decide, (C7_CheckDriver_error_names_driver "oracle" appDrivers).1 (by decide)⟩


theorem mapSet_of_not_mem (m : RawResult) (k v : String) (h : k ∉ mapKeys m) :
    mapSet m k v = m ++ [(k, v)] := by
  induction m with
  | nil => rfl
  | cons e rest ih =>
    obtain ⟨k1, v1⟩ := e
    simp only [mapKeys, List.map_cons, List.mem_cons, not_or] at h
    have hne : ¬ k1 = k := fun hk => h.1 hk.symm
    simp only [mapSet, hne, if_false, List.cons_append]
    rw [ih h.2]

theorem Scan_length (lastcols dest : List RawBytes) :
    (Scan lastcols dest).1.length = dest.length := by
  unfold Scan
  split
  · rfl
  · rename_i h
    simpa using (not_not.mp h).symm

theorem Scan_of_length_eq (lastcols dest : List RawBytes) (h : dest.length = lastcols.length) :
    (Scan lastcols dest).1 = lastcols := by
  simp [Scan, h]

theorem fillResultMap_total (cols : List String) (result : List RawBytes) :
    ∀ (i : Nat) (m : RawResult), i + result.length ≤ cols.length →
      ∃ m2, fillResultMap cols i result m = .ok m2 := by
  induction result with
  | nil => intro i m _; exact ⟨m, rfl⟩
  | cons v rest ih =>
    intro i m h
    simp only [List.length_cons] at h
    have hi : i < cols.length := by omega
    obtain ⟨m2, hm2⟩ := ih (i + 1) (mapSet m cols[i] (rawBytesToString v)) (by omega)
    refine ⟨m2, ?_⟩
    simp only [fillResultMap, List.getElem?_eq_getElem hi]
    exact hm2

theorem rowsLoop_total (cols : List String) (pending : List (List RawBytes)) :
    ∀ (result : List RawBytes) (results : List RawResult), result.length ≤ cols.length →
      ∃ res, rowsLoop cols pending result results = .ok res := by
  induction pending with
  | nil => intro result results _; exact ⟨results, rfl⟩
  | cons row rest ih =>
    intro result results h
    have hlen : (Scan row result).1.length ≤ cols.length := by
      rw [Scan_length]; exact h
    obtain ⟨m2, hm2⟩ := fillResultMap_total cols (Scan row result).1 0 [] (by omega)
    obtain ⟨res, hres⟩ := ih (Scan row result).1 (results ++ [m2]) hlen
    refine ⟨res, ?_⟩
    simp only [rowsLoop, hm2]
    exact hres

theorem ResultHolder_length (rows : Rows) (cols : List String) (h : rows.columns = some cols) :
    (ResultHolder rows).length = cols.length := by
  simp [ResultHolder, h]

theorem RawResultMapSt_total (rows : Rows) :
    ∃ res rows2, RawResultMapSt rows = .ok (res, rows2) := by
  unfold RawResultMapSt
  cases hc : rows.columns with
  | none => exact ⟨[], rows, rfl⟩
  | some cols =>
    obtain ⟨res, hres⟩ := rowsLoop_total cols rows.pending (ResultHolder rows) []
      (le_of_eq (ResultHolder_length rows cols hc))
    exact ⟨res, { columns := some cols, pending := [] }, by simp only [hres]⟩

theorem RawResultMap_total (rows : Rows) : ∃ res, RawResultMap rows = .ok res := by
  obtain ⟨res, rows2, h⟩ := RawResultMapSt_total rows
  exact ⟨res, by simp only [RawResultMap, h]⟩

theorem fillResultMap_append_zip (cols : List String) (result : List RawBytes) :
    ∀ (i : Nat) (m : RawResult), i + result.length ≤ cols.length → (cols.drop i).Nodup →
      (∀ k ∈ cols.drop i, k ∉ mapKeys m) →
      fillResultMap cols i result m = .ok (m ++ (cols.drop i).zip result) := by
  induction result with
  | nil => intro i m _ _ _; simp [fillResultMap]
  | cons v vs ih =>
    intro i m hle hnd hfresh
    simp only [List.length_cons] at hle
    have hi : i < cols.length := by omega
    have hdrop : cols.drop i = cols[i] :: cols.drop (i + 1) := List.drop_eq_getElem_cons hi
    rw [hdrop] at hnd hfresh
    have hnd2 := List.nodup_cons.mp hnd
    have hc : cols[i] ∉ mapKeys m := hfresh _ (List.mem_cons_self _ _)
    simp only [fillResultMap, List.getElem?_eq_getElem hi, rawBytesToString]
    rw [mapSet_of_not_mem m _ v hc, ih (i + 1) _ (by omega) hnd2.2, hdrop]
    · simp only [List.append_assoc, List.singleton_append, List.zip_cons_cons]
    · intro k hk
      simp only [mapKeys, List.map_append, List.map_cons, List.map_nil, List.mem_append,
        List.mem_singleton, not_or]
      refine ⟨hfresh k (List.mem_cons_of_mem _ hk), ?_⟩
      intro hkc
      exact hnd2.1 (hkc ▸ hk)

theorem fillResultMap_eq_zip (cols : List String) (result : List RawBytes)
    (hnd : cols.Nodup) (hlen : result.length = cols.length) :
    fillResultMap cols 0 result [] = .ok (cols.zip result) := by
  have h := fillResultMap_append_zip cols result 0 [] (by omega) (by simpa using hnd)
    (by intro k _; simp [mapKeys])
  simpa using h

theorem rowsLoop_eq_map_zip (cols : List String) (hnd : cols.Nodup)
    (pending : List (List RawBytes)) :
    ∀ (result : List RawBytes) (results : List RawResult), result.length = cols.length →
      (∀ r ∈ pending, r.length = cols.length) →
      rowsLoop cols pending result results
        = .ok (results ++ pending.map (fun r => cols.zip r)) := by
  induction pending with
  | nil => intro result results _ _; simp [rowsLoop]
  | cons row rest ih =>
    intro result results hres hall
    have hrow : row.length = cols.length := hall row (List.mem_cons_self _ _)
    have hscan : (Scan row result).1 = row := Scan_of_length_eq row result (hres.trans hrow.symm)
    simp only [rowsLoop, hscan, fillResultMap_eq_zip cols row hnd hrow]
    rw [ih row _ hrow (fun r hr => hall r (List.mem_cons_of_mem _ hr))]
    simp

theorem RawResultMap_eq_map_zip (rows : Rows) (cols : List String)
    (hcols : rows.columns = some cols) (hnd : cols.Nodup)
    (hlen : ∀ r ∈ rows.pending, r.length = cols.length) :
    RawResultMap rows = .ok (rows.pending.map (fun r => cols.zip r)) := by
  have h := rowsLoop_eq_map_zip cols hnd rows.pending (ResultHolder rows) []
    (ResultHolder_length rows cols hcols) hlen
  simp only [RawResultMap, RawResultMapSt, hcols, h, List.nil_append]

theorem mapGet_zip (cols : List String) (hnd : cols.Nodup) :
    ∀ (r : List RawBytes) (j : Nat) (name : String) (val : RawBytes),
      cols[j]? = some name → r[j]? = some val → mapGet (cols.zip r) name = some val := by
  induction cols with
  | nil => intro r j name val h; simp at h
  | cons c cs ih =>
    intro r j name val hc hr
    have hnd2 := List.nodup_cons.mp hnd
    cases r with
    | nil => simp at hr
    | cons x xs =>
      cases j with
      | zero =>
        simp only [List.getElem?_cons_zero, Option.some.injEq] at hc hr
        subst hc; subst hr
        simp [mapGet, List.lookup]
      | succ j =>
        simp only [List.getElem?_cons_succ] at hc hr
        have hmem : name ∈ cs := List.getElem?_mem hc
        have hne : ¬ name = c := fun h => hnd2.1 (h ▸ hmem)
        have := ih hnd2.2 xs j name val hc hr
        simp only [mapGet] at this
        have hb : (name == c) = false := by simpa using hne
        simp only [mapGet, List.zip_cons_cons, List.lookup_cons, hb]
        exact this

theorem mapGet_zip_of_not_mem (cols : List String) :
    ∀ (r : List RawBytes) (k : String), k ∉ cols → mapGet (cols.zip r) k = none := by
  induction cols with
  | nil => intro r k _; simp [mapGet]
  | cons c cs ih =>
    intro r k hk
    simp only [List.mem_cons, not_or] at hk
    cases r with
    | nil => simp [mapGet]
    | cons x xs =>
      have := ih xs k hk.2
      simp only [mapGet] at this
      have hb : (k == c) = false := by simpa using hk.1
      simp only [mapGet, List.zip_cons_cons, List.lookup_cons, hb]
      exact this

/-- C8: for a cursor whose column fetch succeeds with pairwise distinct names
`cols` and whose rows each carry one value per column, `RawResultMap` returns
(without a run-time fault) one map per row, in cursor order; the map of a row
sends `cols[j]` to the text of the row's `j`-th value and has no key outside
`cols`. A cursor without rows gives the empty list, and the columns `id`, `name`
with the single row `1`, `a` give the single map `id: 1, name: a`. -/
theorem C8_RawResultMap_rows_in_cursor_order (rows : Rows) (cols : List String)
    (hcols : rows.columns = some cols) (hnd : cols.Nodup)
    (hlen : ∀ r ∈ rows.pending, r.length = cols.length) :
    (∃ res, RawResultMap rows = .ok res ∧ res.length = rows.pending.length ∧
      List.Forall₂ (fun (m : RawResult) (r : List RawBytes) =>
        (∀ (j : Nat) (name : String) (val : RawBytes),
          cols[j]? = some name → r[j]? = some val →
            mapGet m name = some (rawBytesToString val)) ∧
        (∀ k : String, k ∉ cols → mapGet m k = none)) res rows.pending ∧
      (rows.pending = [] → res = [])) ∧
    RawResultMap { columns := some cols, pending := [] } = .ok [] ∧
    RawResultMap specRows = .ok [[("id", "1"), ("name", "a")]] := by
  refine ⟨⟨rows.pending.map (fun r => cols.zip r),
    RawResultMap_eq_map_zip rows cols hcols hnd hlen, by simp, ?_, ?_⟩, ?_, rfl⟩
  · rw [List.forall₂_map_left_iff]
    apply List.forall₂_same.mpr
    intro r _
    exact ⟨fun j name val hj hr => mapGet_zip cols hnd r j name val hj hr,
      fun k hk => mapGet_zip_of_not_mem cols r k hk⟩
  · intro h
    rw [h]
    rfl
  · exact RawResultMap_eq_map_zip { columns := some cols, pending := [] } cols rfl hnd
      (by intro r hr; simp at hr)

/-- Witness of C8 at the spec's cursor: columns `id`, `name`, one row `1`, `a`. -/
theorem C8_RawResultMap_rows_in_cursor_order_witness :
    specRows.columns = some ["id", "name"] ∧ ["id", "name"].Nodup ∧
    (∀ r ∈ specRows.pending, r.length = ["id", "name"].length) ∧
    ∃ res, RawResultMap specRows = .ok res ∧ res.length = specRows.pending.length ∧
      List.Forall₂ (fun (m : RawResult) (r : List RawBytes) =>
        (∀ (j : Nat) (name : String) (val : RawBytes),
          ["id", "name"][j]? = some name → r[j]? = some val →
            mapGet m name = some (rawBytesToString val)) ∧
        (∀ k : String, k ∉ ["id", "name"] → mapGet m k = none)) res specRows.pending ∧
      (specRows.pending = [] → res = []) :=
  ⟨rfl, by decide, by decide,
    (C8_RawResultMap_rows_in_cursor_order specRows ["id", "name"] rfl (by decide)
      (by decide)).1⟩

instance stringLE.isTotal : IsTotal String stringLE :=
  ⟨fun a b => le_total a.data b.data⟩

instance stringLE.isTrans : IsTrans String stringLE :=
  ⟨fun _ _ _ h1 h2 => le_trans (α := List Char) h1 h2⟩

instance stringLE.isAntisymm : IsAntisymm String stringLE :=
  ⟨fun _ _ h1 h2 => String.ext (le_antisymm (α := List Char) h1 h2)⟩

theorem collectKeys_eq_map (visit : List (String × String)) :
    collectKeys visit = visit.map Prod.fst := by
  have h : ∀ (l : List (String × String)) (acc : List String),
      l.foldl (fun keys e => keys ++ [e.1]) acc = acc ++ l.map Prod.fst := by
    intro l
    induction l with
    | nil => intro acc; simp
    | cons e rest ih => intro acc; simp [ih]
  simpa [collectKeys] using h visit []

theorem sortStrings_perm (keys : List String) : (sortStrings keys).Perm keys :=
  List.perm_insertionSort stringLE keys

theorem sortStrings_sorted (keys : List String) : (sortStrings keys).Sorted stringLE :=
  List.sorted_insertionSort stringLE keys

theorem sortStrings_congr {l1 l2 : List String} (h : l1.Perm l2) :
    sortStrings l1 = sortStrings l2 :=
  List.eq_of_perm_of_sorted ((sortStrings_perm l1).trans (h.trans (sortStrings_perm l2).symm))
    (sortStrings_sorted l1) (sortStrings_sorted l2)

theorem sortStrings_strict (keys : List String) (hnd : keys.Nodup) :
    (sortStrings keys).Sorted (fun a b => a.data < b.data) := by
  have hnd2 : (sortStrings keys).Nodup := (sortStrings_perm keys).nodup_iff.mpr hnd
  have hs := sortStrings_sorted keys
  unfold List.Sorted at hs ⊢
  unfold List.Nodup at hnd2
  refine (hs.and hnd2).imp ?_
  intro a b hab
  exact lt_of_le_of_ne hab.1 (fun h => hab.2 (String.ext h))

theorem mapGet_of_mem (l : List (String × String)) (hnd : (mapKeys l).Nodup)
    (k x : String) (h : (k, x) ∈ l) : mapGet l k = some x := by
  induction l with
  | nil => simp at h
  | cons e rest ih =>
    obtain ⟨k1, x1⟩ := e
    simp only [mapKeys, List.map_cons, List.nodup_cons] at hnd
    rcases List.mem_cons.mp h with heq | hmem
    · simp only [Prod.mk.injEq] at heq
      obtain ⟨rfl, rfl⟩ := heq
      simp [mapGet]
    · have hne : ¬ k = k1 := by
        intro hk
        exact hnd.1 (hk ▸ List.mem_map_of_mem Prod.fst hmem)
      have hb : (k == k1) = false := by simpa using hne
      have := ih hnd.2 hmem
      simp only [mapGet] at this
      simp only [mapGet, List.lookup_cons, hb]
      exact this

theorem columnLine_of_mem (color : Color) (l : List (String × String))
    (hnd : (mapKeys l).Nodup) (k x : String) (h : (k, x) ∈ l) :
    columnLine color k l = ["  " ++ color.Grey k ++ ": " ++ x ++ "\n"] := by
  induction l with
  | nil => simp at h
  | cons e rest ih =>
    obtain ⟨k1, x1⟩ := e
    simp only [mapKeys, List.map_cons, List.nodup_cons] at hnd
    have hnone : ∀ l2 : List (String × String), k ∉ l2.map Prod.fst →
        columnLine color k l2 = [] := by
      intro l2 hk
      simp only [columnLine, List.filterMap_eq_nil_iff]
      intro e he
      have : ¬ e.1 = k := fun h2 => hk (h2 ▸ List.mem_map_of_mem Prod.fst he)
      simp [this]
    rcases List.mem_cons.mp h with heq | hmem
    · simp only [Prod.mk.injEq] at heq
      obtain ⟨rfl, rfl⟩ := heq
      have := hnone rest hnd.1
      simp only [columnLine] at this
      simp [columnLine, this]
    · have hne : ¬ k1 = k := by
        intro hk
        exact hnd.1 (hk ▸ List.mem_map_of_mem Prod.fst hmem)
      have := ih hnd.2 hmem
      simp only [columnLine] at this
      simp [columnLine, hne, this]

theorem columnLines_eq_map (color : Color) (v : RawResult) (hv : (mapKeys v).Nodup)
    (visits : Nat → List (String × String)) (hvis : ∀ n, (visits n).Perm v)
    (names : List String) :
    ∀ n : Nat, (∀ name ∈ names, name ∈ mapKeys v) →
      columnLines color visits n names = names.map (columnText color v) := by
  induction names with
  | nil => intro n _; rfl
  | cons name rest ih =>
    intro n hmem
    have hname : name ∈ mapKeys v := hmem name (List.mem_cons_self _ _)
    obtain ⟨e, he, hfst⟩ := List.mem_map.mp hname
    obtain ⟨k1, x⟩ := e
    simp only at hfst
    subst hfst
    have hnd : (mapKeys (visits n)).Nodup :=
      ((hvis n).map Prod.fst).nodup_iff.mpr hv
    have hline := columnLine_of_mem color (visits n) hnd k1 x ((hvis n).mem_iff.mpr he)
    have hget := mapGet_of_mem v hv k1 x he
    simp only [columnLines, hline, ih (n + 1) (fun a ha => hmem a (List.mem_cons_of_mem _ ha)),
      List.map_cons, columnText, hget, Option.getD_some, List.singleton_append]

theorem renderRow_eq (color : Color) (v : RawResult) (hv : (mapKeys v).Nodup)
    (keyVisit : List (String × String)) (visits : Nat → List (String × String))
    (hk : keyVisit.Perm v) (hvis : ∀ n, (visits n).Perm v) (k rrmLen : Nat) :
    renderRow color k rrmLen keyVisit visits =
      [color.White "\x7b " ++ color.Grey (Sprintf "%v/%v" [.int (k + 1), .int rrmLen]) ++ "\n"]
        ++ (sortStrings (mapKeys v)).map (columnText color v)
        ++ ["\x7d"]
        ++ (if rrmLen = k + 1 then
              ["\n\n",
               "Fetched " ++ color.Bold (Sprintf "%v" [.int rrmLen]) ++ " result(s).\n"]
            else [",\n"]) := by
  have hkeys : sortStrings (collectKeys keyVisit) = sortStrings (mapKeys v) := by
    rw [collectKeys_eq_map]
    exact sortStrings_congr (hk.map Prod.fst)
  have hmem : ∀ name ∈ sortStrings (mapKeys v), name ∈ mapKeys v :=
    fun name h => (sortStrings_perm (mapKeys v)).mem_iff.mp h
  simp only [renderRow, hkeys,
    columnLines_eq_map color v hv visits hvis (sortStrings (mapKeys v)) 0 hmem]

theorem renderRowsFrom_eq (color : Color) (range : MapRange) (rrmLen : Nat)
    (rows : List RawResult) :
    ∀ k : Nat, (∀ row ∈ rows, (mapKeys row).Nodup) →
      (∀ row ∈ rows, ∀ n : Nat, (range row n).Perm row) →
      renderRowsFrom color range rrmLen k rows
        = ((rows.enumFrom k).map (fun p => renderedRow color p.1 rrmLen p.2)).flatten := by
  induction rows with
  | nil => intro k _ _; rfl
  | cons v rest ih =>
    intro k hnd hperm
    have hv := hnd v (List.mem_cons_self _ _)
    have hp := hperm v (List.mem_cons_self _ _)
    simp only [renderRowsFrom, List.enumFrom_cons, List.map_cons, List.flatten_cons]
    rw [renderRow_eq color v hv (range v 0) (fun n => range v (n + 1)) (hp 0)
        (fun n => hp (n + 1)) k rrmLen,
      ih (k + 1) (fun row hrow => hnd row (List.mem_cons_of_mem _ hrow))
        (fun row hrow => hperm row (List.mem_cons_of_mem _ hrow))]
    rfl

/-- C9: the rendering loop of `describe` and `sql` prints, for every row of the
result set (a map, so with pairwise distinct column names) and between the row's
header and closing brace, exactly one line `name: value` per column of the row,
in strictly ascending string order of the column names, whatever order the
`range` loops visit the map in and whatever order the columns are stored in; the
rows follow each other in the order of the result set. For the row with `id = 1`
and `name = a` the line of `id` comes before the line of `name`, in the loop,
in `describe` and in `sql`. -/
theorem C9_render_columns_alphabetical (color : Color) (v : RawResult)
    (hv : (mapKeys v).Nodup) (keyVisit : List (String × String))
    (visits : Nat → List (String × String))
    (hk : keyVisit.Perm v) (hvis : ∀ n, (visits n).Perm v) (k rrmLen : Nat) :
    renderRow color k rrmLen keyVisit visits =
      [color.White "\x7b " ++ color.Grey (Sprintf "%v/%v" [.int (k + 1), .int rrmLen]) ++ "\n"]
        ++ (sortStrings (mapKeys v)).map (columnText color v)
        ++ ["\x7d"]
        ++ (if rrmLen = k + 1 then
              ["\n\n",
               "Fetched " ++ color.Bold (Sprintf "%v" [.int rrmLen]) ++ " result(s).\n"]
            else [",\n"]) ∧
    (sortStrings (mapKeys v)).Perm (mapKeys v) ∧
    (sortStrings (mapKeys v)).Sorted (fun a b => a.data < b.data) ∧
    (∀ (v2 : RawResult) (keyVisit2 : List (String × String))
        (visits2 : Nat → List (String × String)),
      v2.Perm v → keyVisit2.Perm v2 → (∀ n, (visits2 n).Perm v2) →
        renderRow color k rrmLen keyVisit2 visits2 = renderRow color k rrmLen keyVisit visits) ∧
    renderRow plainColor 0 1 specRow (fun _ => specRow) =
      ["\x7b 1/1\n", "  id: 1\n", "  name: a\n", "\x7d", "\n\n", "Fetched 1 result(s).\n"] ∧
    (∀ (range : MapRange) (rrm : List RawResult),
      (∀ row ∈ rrm, (mapKeys row).Nodup) →
      (∀ row ∈ rrm, ∀ n : Nat, (range row n).Perm row) →
        renderRows color range rrm
          = (rrm.enum.map (fun p => renderedRow color p.1 rrm.length p.2)).flatten) ∧
    renderRows plainColor (fun row _ => row) [specRow, otherRow] =
      ["\x7b 1/2\n", "  id: 1\n", "  name: a\n", "\x7d", ",\n",
       "\x7b 2/2\n", "  a: 1\n", "  b: 2\n", "\x7d", "\n\n", "Fetched 2 result(s).\n"] ∧
    describeRender plainEnv { trace := [], deferred := [] } (some specRows) =
      .ok ([Event.out "\n", Event.out "Result:\n", Event.out "\x7b 1/1\n",
            Event.out "  id: 1\n", Event.out "  name: a\n", Event.out "\x7d",
            Event.out "\n\n", Event.out "Fetched 1 result(s).\n",
            Event.out "\nDONE (1ms)\n"], none) ∧
    sqlLoop plainEnv "mysql" 2 ["select 1\n", "q\n"] [] =
      .ok ([Event.out "mysql> ", Event.query "select 1", Event.out "\n",
            Event.out "\x7b 1/1\n", Event.out "  id: 1\n", Event.out "  name: a\n",
            Event.out "\x7d", Event.out "\n\n", Event.out "Fetched 1 result(s).\n",
            Event.out "\nDONE (1ms)\n", Event.out "mysql> "], []) := by
  refine ⟨renderRow_eq color v hv keyVisit visits hk hvis k rrmLen,
    sortStrings_perm _, sortStrings_strict _ hv, ?_, by decide, ?_, by decide, rfl, rfl⟩
  · intro v2 keyVisit2 visits2 h2 hk2 hvis2
    rw [renderRow_eq color v hv keyVisit visits hk hvis k rrmLen,
      renderRow_eq color v hv keyVisit2 visits2 (hk2.trans h2) (fun n => (hvis2 n).trans h2)
        k rrmLen]
  · intro range rrm hnd hperm
    exact renderRowsFrom_eq color range rrm.length rrm 0 hnd hperm

/-- Witness of C9 at the spec's row, stored with `name` before `id` and visited
in the opposite order by the key-collecting loop, and at a result set of two
rows whose maps are visited in the reverse of the storage order. -/
theorem C9_render_columns_alphabetical_witness :
    (mapKeys specRow).Nodup ∧ specRow.reverse.Perm specRow ∧
    (∀ n : Nat, ((fun _ => specRow) n : List (String × String)).Perm specRow) ∧
    renderRow plainColor 0 2 specRow.reverse (fun _ => specRow) =
      ["\x7b 1/2\n", "  id: 1\n", "  name: a\n", "\x7d", ",\n"] ∧
    (∀ row ∈ [specRow, otherRow], (mapKeys row).Nodup) ∧
    (∀ row ∈ [specRow, otherRow], ∀ n : Nat,
      ((fun (r : RawResult) (_ : Nat) => r.reverse) row n).Perm row) ∧
    renderRows plainColor (fun r _ => r.reverse) [specRow, otherRow] =
      ["\x7b 1/2\n", "  id: 1\n", "  name: a\n", "\x7d", ",\n",
       "\x7b 2/2\n", "  a: 1\n", "  b: 2\n", "\x7d", "\n\n", "Fetched 2 result(s).\n"] :=
  ⟨by decide, List.reverse_perm specRow, fun _ => List.Perm.refl specRow,
    by
      rw [(C9_render_columns_alphabetical plainColor specRow (by decide) specRow.reverse
        (fun _ => specRow) (List.reverse_perm specRow) (fun _ => List.Perm.refl specRow) 0 2).1]
      decide,
    by decide, fun row _ _ => List.reverse_perm row,
    by
      rw [(C9_render_columns_alphabetical plainColor specRow (by decide) specRow.reverse
        (fun _ => specRow) (List.reverse_perm specRow) (fun _ => List.Perm.refl specRow)
        0 2).2.2.2.2.2.1 (fun r _ => r.reverse) [specRow, otherRow] (by decide)
        (fun row _ _ => List.reverse_perm row)]
      decide⟩

theorem Sprintf_v_str (text : String) : Sprintf "%v" [.str text] = text := by
  apply String.ext
  simp [Sprintf, sprintfAux, formatArg]

theorem statements_append (t1 t2 : List Event) :
    statements (t1 ++ t2) = statements t1 ++ statements t2 := by
  simp [statements, List.filterMap_append]

theorem statements_map_out (texts : List String) :
    statements (texts.map Event.out) = [] := by
  induction texts with
  | nil => rfl
  | cons t rest ih =>
    simp only [statements, List.map_cons, List.filterMap_cons] at ih ⊢
    exact ih

theorem sqlLoop_until_sentinel (env : Env) (driver : String) (s : String)
    (post : List String) (hs : isSentinel (TrimSpace s)) (pre : List String) :
    ∀ (fuel : Nat) (trace : List Event), (∀ l ∈ pre, ¬ isSentinel (TrimSpace l)) →
      pre.length < fuel →
      ∃ trace2, sqlLoop env driver fuel (pre ++ s :: post) trace = .ok (trace2, post) ∧
        statements trace2 = statements trace ++ pre.map TrimSpace := by
  induction pre with
  | nil =>
    intro fuel trace _ hfuel
    obtain ⟨f, rfl⟩ : ∃ f, fuel = f + 1 := ⟨fuel - 1, by simp at hfuel; omega⟩
    refine ⟨trace ++ [Event.out (env.color.Bold driver ++ "> ")], ?_, ?_⟩
    · simp [sqlLoop, readString, hs]
    · simp [statements_append, statements]
  | cons l ls ih =>
    intro fuel trace hpre hfuel
    obtain ⟨f, rfl⟩ : ∃ f, fuel = f + 1 := ⟨fuel - 1, by simp at hfuel; omega⟩
    have hl : ¬ isSentinel (TrimSpace l) := hpre l (List.mem_cons_self _ _)
    have hls : ∀ x ∈ ls, ¬ isSentinel (TrimSpace x) :=
      fun x hx => hpre x (List.mem_cons_of_mem _ hx)
    have hf : ls.length < f := by simp at hfuel; omega
    simp only [sqlLoop, List.cons_append, readString, hl, if_false, Sprintf_v_str]
    have hq : ("" : String) ≠ "q" := by decide
    simp only [hq, if_false]
    cases hres : env.queryRes (trace ++ [Event.out (env.color.Bold driver ++ "> ")])
        (TrimSpace l) with
    | error err =>
      obtain ⟨trace2, h1, h2⟩ := ih f
        (trace ++ [Event.out (env.color.Bold driver ++ "> ")] ++ [Event.query (TrimSpace l)]
          ++ [Event.out "\n", Event.out (env.color.Red err ++ "\n")]) hls hf
      refine ⟨trace2, h1, ?_⟩
      rw [h2]
      simp [statements_append, statements]
    | ok ret =>
      obtain ⟨rrm, hrrm⟩ := RawResultMap_total ret
      simp only [hrrm]
      obtain ⟨trace2, h1, h2⟩ := ih f
        (trace ++ [Event.out (env.color.Bold driver ++ "> ")] ++ [Event.query (TrimSpace l)]
          ++ (if rrm.length > 0 then [Event.out "\n"] else [])
          ++ (renderRows env.color env.range rrm).map Event.out
          ++ [Event.out ("\n" ++ env.color.Green "DONE" ++ " "
                ++ env.color.Dim ("(" ++ env.elapsed
                  (trace ++ [Event.out (env.color.Bold driver ++ "> ")]
                    ++ [Event.query (TrimSpace l)]) ++ ")") ++ "\n")]) hls hf
      refine ⟨trace2, h1, ?_⟩
      rw [h2]
      simp only [statements_append, statements_map_out]
      split <;> simp [statements]

/-- C10: when the input of the interactive `sql` loop holds the lines `pre`, none
of which trims to a termination token, followed by a line `s` that trims to one
of `q`, `exit`, `\q`, `/q`, `.exit`, the loop (given more iterations than
`pre` has lines) ends right after reading `s`, leaving the rest of the input
unread, and the statements it handed to the session are exactly the trimmed
texts of the lines of `pre`, in input order, once each, whatever the database
answered to the earlier ones; with `q` as the first line no statement is
executed. -/
theorem C10_sql_loop_runs_lines_before_sentinel (env : Env) (driver : String)
    (pre : List String) (s : String) (post : List String) (trace : List Event) (fuel : Nat)
    (hpre : ∀ l ∈ pre, ¬ isSentinel (TrimSpace l)) (hs : isSentinel (TrimSpace s))
    (hfuel : pre.length < fuel) :
    (∃ trace2, sqlLoop env driver fuel (pre ++ s :: post) trace = .ok (trace2, post) ∧
      statements trace2 = statements trace ++ pre.map TrimSpace) ∧
    (∃ trace3, sqlLoop env driver fuel ("q\n" :: post) [] = .ok (trace3, post) ∧
      statements trace3 = []) := by
  refine ⟨sqlLoop_until_sentinel env driver s post hs pre fuel trace hpre hfuel, ?_⟩
  have hq : isSentinel (TrimSpace "q\n") := by decide
  obtain ⟨trace3, h1, h2⟩ :=
    sqlLoop_until_sentinel env driver "q\n" post hq [] fuel [] (by simp) (by simp; omega)
  exact ⟨trace3, h1, by simpa [statements] using h2⟩

/-- Witness of C10: two statements (the second an empty line), then ` exit `,
then a line that is never read. -/
theorem C10_sql_loop_runs_lines_before_sentinel_witness :
    (∀ l ∈ ["select 1\n", "\n"], ¬ isSentinel (TrimSpace l)) ∧
    isSentinel (TrimSpace " exit \n") ∧ ["select 1\n", "\n"].length < 3 ∧
    (∃ trace2, sqlLoop plainEnv "mysql" 3 (["select 1\n", "\n"] ++ " exit \n" :: ["select 2\n"]) []
        = .ok (trace2, ["select 2\n"]) ∧
      statements trace2 = statements [] ++ ["select 1\n", "\n"].map TrimSpace) ∧
    ["select 1\n", "\n"].map TrimSpace = ["select 1", ""] :=
  ⟨by decide, by decide, by decide,
    (C10_sql_loop_runs_lines_before_sentinel plainEnv "mysql" ["select 1\n", "\n"] " exit \n"
      ["select 2\n"] [] 3 (by decide) (by decide) (by decide)).1, by decide⟩

theorem outputLoop_eq (sep : String) (names : List String) :
    ∀ (i : Nat) (amount : Int) (out : String), names ≠ [] →
      amount = ((i + names.length : Nat) : Int) - 1 →
      outputLoop sep amount i names out = out ++ joinWith sep names := by
  induction names with
  | nil => intro i amount out h; exact absurd rfl h
  | cons v rest ih =>
    intro i amount out _ hamount
    cases rest with
    | nil =>
      have h : ¬ (amount ≠ (i : Int)) := by
        simp only [List.length_cons, List.length_nil] at hamount
        omega
      rw [outputLoop]
      simp only [h, if_false, joinWith, outputLoop]
    | cons w rest2 =>
      have h : amount ≠ (i : Int) := by
        simp only [List.length_cons] at hamount
        omega
      have hnext : amount = (((i + 1) + (w :: rest2).length : Nat) : Int) - 1 := by
        simp only [List.length_cons] at hamount ⊢
        omega
      rw [outputLoop]
      simp only [h, if_true, ne_eq, not_false_eq_true]
      rw [ih (i + 1) amount (out ++ v ++ sep) (by simp) hnext]
      simp only [joinWith, String.append_assoc]

/-- C14: for every driver list, `Output(list)` is the names concatenated in list
order with `", "` between consecutive names when `list` is false and a newline
when it is true, no separator before the first or after the last name; the
empty list gives the empty string, and the registered list gives
`sqlite3, mysql, postgres` and the three names on three lines. -/
theorem C14_Output_joins_driver_names (drivers : availableDrivers) :
    drivers.Output false = joinWith ", " drivers.Driver ∧
    drivers.Output true = joinWith "\n" drivers.Driver ∧
    (availableDrivers.mk []).Output false = "" ∧ (availableDrivers.mk []).Output true = "" ∧
    appDrivers.Output false = "sqlite3, mysql, postgres" ∧
    appDrivers.Output true = "sqlite3\nmysql\npostgres" := by
  have key : ∀ (sep : String) (names : List String),
      outputLoop sep ((names.length : Int) - 1) 0 names "" = joinWith sep names := by
    intro sep names
    cases names with
    | nil => rfl
    | cons v rest =>
      rw [outputLoop_eq sep (v :: rest) 0 _ "" (by simp) (by simp)]
      apply String.ext
      simp
  refine ⟨?_, ?_, by decide, by decide, by decide, by decide⟩
  · simpa [availableDrivers.Output] using key ", " drivers.Driver
  · simpa [availableDrivers.Output] using key "\n" drivers.Driver

/-- C15: for a cursor whose column fetch fails, `RawResultMap` returns the empty
list, reports nothing and leaves every pending row unread, and `ResultHolder`
returns an empty holder; the result is the one of a cursor with any columns and
no rows, so the caller cannot tell the failure from an empty answer. -/
theorem C15_RawResultMap_swallows_column_failure (rows : Rows) (h : rows.columns = none) :
    RawResultMapSt rows = .ok ([], rows) ∧ RawResultMap rows = .ok [] ∧
    ResultHolder rows = [] ∧
    (∀ cols : List String,
      RawResultMap rows = RawResultMap { columns := some cols, pending := [] }) := by
  have h1 : RawResultMapSt rows = .ok ([], rows) := by
    simp only [RawResultMapSt, h]
  have h2 : RawResultMap rows = .ok [] := by
    simp only [RawResultMap, h1]
  refine ⟨h1, h2, by simp only [ResultHolder, h], ?_⟩
  intro cols
  rw [h2]
  rfl

/-- Witness of C15 at a cursor with two pending rows and a failing column fetch. -/
theorem C15_RawResultMap_swallows_column_failure_witness :
    brokenRows.columns = none ∧
    RawResultMapSt brokenRows = .ok ([], brokenRows) ∧ RawResultMap brokenRows = .ok [] ∧
    ResultHolder brokenRows = [] ∧
    RawResultMap brokenRows = RawResultMap { columns := some ["id", "name"], pending := [] } :=
  ⟨rfl, (C15_RawResultMap_swallows_column_failure brokenRows rfl).1,
    (C15_RawResultMap_swallows_column_failure brokenRows rfl).2.1,
    (C15_RawResultMap_swallows_column_failure brokenRows rfl).2.2.1,
    (C15_RawResultMap_swallows_column_failure brokenRows rfl).2.2.2 ["id", "name"]⟩

theorem Legacy_buildConn_of_ne_postgres (args : connT) (flag : Bool)
    (h : args.Driver ≠ "postgres") :
    (Legacy.buildConn (toLegacy args) flag).swap = BuildConn args flag := by
  by_cases h1 : args.Driver = "mysql"
  · simp [Legacy.buildConn, BuildConn, toLegacy, h1]
  · by_cases h3 : args.Driver = "sqlite3"
    · simp [Legacy.buildConn, BuildConn, toLegacy, h3]
    · simp [Legacy.buildConn, BuildConn, toLegacy, h1, h3, h]

theorem Legacy_buildConn_of_postgres (args : connT) (flag : Bool)
    (h : args.Driver = "postgres") :
    Legacy.buildConn (toLegacy args) flag = (some "build connection was ignored", "") ∧
    (BuildConn args flag).2 = none := by
  simp [Legacy.buildConn, BuildConn, toLegacy, h]

/-- C16: on the fields the two records share, the legacy `buildConn` of `mig.go`
and `BuildConn` of `main.go` return the same descriptor and the same error
outcome whenever `Driver` is not `postgres` (mysql, sqlite3 and every unknown
driver), and they differ exactly when it is `postgres`: there the legacy builder
returns the error `build connection was ignored` with an empty descriptor,
although the legacy `checkDriver` accepts `postgres`, while `BuildConn` returns no
error. -/
theorem C16_legacy_buildConn_differs_only_on_postgres (args : connT) (flag : Bool) :
    (args.Driver ≠ "postgres" →
      (Legacy.buildConn (toLegacy args) flag).swap = BuildConn args flag) ∧
    (args.Driver = "postgres" →
      Legacy.buildConn (toLegacy args) flag = (some "build connection was ignored", "") ∧
      (BuildConn args flag).2 = none) ∧
    ((Legacy.buildConn (toLegacy args) flag).swap = BuildConn args flag ↔
      args.Driver ≠ "postgres") ∧
    Legacy.checkDriver "postgres" = none ∧ CheckDriver "postgres" = none := by
  refine ⟨Legacy_buildConn_of_ne_postgres args flag, Legacy_buildConn_of_postgres args flag,
    ⟨?_, Legacy_buildConn_of_ne_postgres args flag⟩, by decide, by decide⟩
  intro heq hpg
  obtain ⟨h1, h2⟩ := Legacy_buildConn_of_postgres args flag hpg
  rw [h1] at heq
  have h3 := congrArg Prod.snd heq
  rw [h2] at h3
  simp at h3

/-- Witness of C16 at an embedded record (same outcome) and at a postgres record
(the legacy builder fails, the current one succeeds). -/
theorem C16_legacy_buildConn_differs_only_on_postgres_witness :
    sqliteArgs.Driver ≠ "postgres" ∧
    (Legacy.buildConn (toLegacy sqliteArgs) true).swap = BuildConn sqliteArgs true ∧
    pgArgs.Driver = "postgres" ∧
    Legacy.buildConn (toLegacy pgArgs) true = (some "build connection was ignored", "") ∧
    (BuildConn pgArgs true).2 = none :=
  ⟨by decide,
    (C16_legacy_buildConn_differs_only_on_postgres sqliteArgs true).1 (by decide), rfl,
    ((C16_legacy_buildConn_differs_only_on_postgres pgArgs true).2.1 rfl).1,
    ((C16_legacy_buildConn_differs_only_on_postgres pgArgs true).2.1 rfl).2⟩

theorem validate_of_rejected (env : Env) (argv : connT) (flag : Bool) (trace : List Event)
    (msg : String) (hrej : CheckDriver argv.Driver = some msg) :
    validate env argv flag { trace := trace ++ [Event.out "\n"], deferred := [] }
      = .inl (trace ++ rejectionReport env msg, none) := by
  have hlist : AppAvailableDrivers ++ ": " ++ appDrivers.Output false ++ "\n"
      = "Available drivers: sqlite3, mysql, postgres\n" := by decide
  simp only [validate, hrej, Run.say, Run.finish, hlist, rejectionReport, List.append_assoc,
    List.singleton_append, List.append_nil, List.cons_append, List.nil_append]

/-- C12: for each of `create`, `drop`, `describe` and `sql`, and every record
with a non-empty database name whose driver `CheckDriver` rejects with the
message `msg`, the command adds to the trace exactly three printed texts (a
newline, the message, the available-drivers list) and returns `nil`: it opens
no session, submits no statement, removes no file, and `sql` reads no input. -/
theorem C12_rejected_driver_opens_nothing (env : Env) (ToUpper : String → String)
    (argv : connT) (trace : List Event) (fuel : Nat) (stdin : List String) (msg : String)
    (hdb : argv.Dbname.length ≠ 0) (hrej : CheckDriver argv.Driver = some msg) :
    createCom env ToUpper argv trace = (trace ++ rejectionReport env msg, none) ∧
    dropCom env argv trace = (trace ++ rejectionReport env msg, none) ∧
    describeCom env argv trace = .ok (trace ++ rejectionReport env msg, none) ∧
    sqlCom env argv fuel stdin trace = .ok (trace ++ rejectionReport env msg, stdin, none) ∧
    countOpened (rejectionReport env msg) = 0 ∧ statements (rejectionReport env msg) = [] ∧
    countRemoved (rejectionReport env msg) = 0 ∧ countClosed (rejectionReport env msg) = 0 ∧
    msg = "driver: " ++ argv.Driver ++ " is not available.\n\n" := by
  refine ⟨?_, ?_, ?_, ?_, rfl, rfl, rfl, rfl, ?_⟩
  · simp only [createCom, hdb, validate_of_rejected env argv false trace msg hrej, if_true,
      ne_eq, not_false_eq_true]
  · simp only [dropCom, hdb, validate_of_rejected env argv false trace msg hrej, if_true,
      ne_eq, not_false_eq_true]
  · simp only [describeCom, hdb, validate_of_rejected env argv true trace msg hrej, if_true,
      ne_eq, not_false_eq_true]
  · simp only [sqlCom, hdb, validate_of_rejected env argv true trace msg hrej, if_true,
      ne_eq, not_false_eq_true]
  · have hnot : ¬ (argv.Driver = "sqlite3" ∨ argv.Driver = "mysql" ∨ argv.Driver = "postgres") := by
      intro h
      rw [(CheckDriver_eq_none_iff argv.Driver).mpr h] at hrej
      exact Option.noConfusion hrej
    have hmem : argv.Driver ∉ appDrivers.Driver := by
      simpa [appDrivers] using hnot
    have h := checkDriverLoop_of_not_mem argv.Driver appDrivers.Driver hmem
    simp only [CheckDriver, CheckDriverSt] at hrej
    rw [h] at hrej
    exact (Option.some.inj hrej).symm

/-- Witness of C12 at a record with the driver `oracle`. -/
theorem C12_rejected_driver_opens_nothing_witness :
    oracleArgs.Dbname.length ≠ 0 ∧
    CheckDriver oracleArgs.Driver = some "driver: oracle is not available.\n\n" ∧
    createCom plainEnv asciiUpper oracleArgs []
      = ([] ++ rejectionReport plainEnv "driver: oracle is not available.\n\n", none) ∧
    sqlCom plainEnv oracleArgs 0 ["select 1\n"] []
      = .ok ([] ++ rejectionReport plainEnv "driver: oracle is not available.\n\n",
          ["select 1\n"], none) :=
  ⟨by decide, by decide,
    (C12_rejected_driver_opens_nothing plainEnv asciiUpper oracleArgs [] 0 ["select 1\n"]
      "driver: oracle is not available.\n\n" (by decide) (by decide)).1,
    (C12_rejected_driver_opens_nothing plainEnv asciiUpper oracleArgs [] 0 ["select 1\n"]
      "driver: oracle is not available.\n\n" (by decide) (by decide)).2.2.2.1⟩

theorem sessionsOpenFrom_append (a b : List Event) :
    ∀ n : Nat, sessionsOpenFrom n (a ++ b)
      = (sessionsOpenFrom n a).bind (fun m => sessionsOpenFrom m b) := by
  induction a with
  | nil => intro n; simp [sessionsOpenFrom]
  | cons e rest ih =>
    intro n
    cases e with
    | closed =>
      cases n with
      | zero => simp [sessionsOpenFrom]
      | succ m => simp [sessionsOpenFrom, ih]
    | _ => simp [sessionsOpenFrom, ih]

theorem countOpened_append (a b : List Event) :
    countOpened (a ++ b) = countOpened a + countOpened b := by
  simp [countOpened]

theorem countClosed_append (a b : List Event) :
    countClosed (a ++ b) = countClosed a + countClosed b := by
  simp [countClosed]

theorem neutral_events (xs : List Event) (h : ∀ e ∈ xs, isSessionEvent e = false) :
    (∀ n : Nat, sessionsOpenFrom n xs = some n) ∧ countOpened xs = 0 ∧ countClosed xs = 0 := by
  induction xs with
  | nil => exact ⟨fun n => by simp [sessionsOpenFrom], rfl, rfl⟩
  | cons e rest ih =>
    have he := h e (List.mem_cons_self _ _)
    obtain ⟨h1, h2, h3⟩ := ih (fun x hx => h x (List.mem_cons_of_mem _ hx))
    cases e with
    | opened d c => simp [isSessionEvent] at he
    | closed => simp [isSessionEvent] at he
    | out t =>
      refine ⟨fun n => by simp [sessionsOpenFrom, h1], ?_, ?_⟩
      · simpa [countOpened] using h2
      · simpa [countClosed] using h3
    | exec q =>
      refine ⟨fun n => by simp [sessionsOpenFrom, h1], ?_, ?_⟩
      · simpa [countOpened] using h2
      · simpa [countClosed] using h3
    | query q =>
      refine ⟨fun n => by simp [sessionsOpenFrom, h1], ?_, ?_⟩
      · simpa [countOpened] using h2
      · simpa [countClosed] using h3
    | removed p =>
      refine ⟨fun n => by simp [sessionsOpenFrom, h1], ?_, ?_⟩
      · simpa [countOpened] using h2
      · simpa [countClosed] using h3

theorem SessionInv_append (base : List Event) (k : Nat) (r : Run) (xs : List Event)
    (hr : SessionInv base k r) (hxs : ∀ e ∈ xs, isSessionEvent e = false) :
    SessionInv base k { r with trace := r.trace ++ xs } := by
  obtain ⟨ev, h1, h2, h3, h4, h5⟩ := hr
  obtain ⟨n1, n2, n3⟩ := neutral_events xs hxs
  refine ⟨ev ++ xs, ?_, h2, ?_, ?_, ?_⟩
  · simp only [h1, List.append_assoc]
  · rw [sessionsOpenFrom_append, h3]
    exact n1 k
  · rw [countOpened_append, h4, n2, Nat.add_zero]
  · rw [countClosed_append, h5, n3]

theorem SessionInv_say (base : List Event) (k : Nat) (r : Run) (text : String)
    (hr : SessionInv base k r) : SessionInv base k (r.say text) :=
  SessionInv_append base k r [Event.out text] hr (by simp [isSessionEvent])

theorem SessionInv_start (base : List Event) (xs : List Event)
    (hxs : ∀ e ∈ xs, isSessionEvent e = false) :
    SessionInv base 0 { trace := base ++ xs, deferred := [] } := by
  have h0 : SessionInv base 0 { trace := base, deferred := [] } :=
    ⟨[], by simp, rfl, rfl, rfl, rfl⟩
  exact SessionInv_append base 0 _ xs h0 hxs

theorem sessionsOpenFrom_replicate_closed (k : Nat) :
    sessionsOpenFrom k (List.replicate k Event.closed) = some 0 := by
  induction k with
  | zero => rfl
  | succ n ih => simpa [List.replicate_succ, sessionsOpenFrom] using ih

theorem count_replicate_closed (k : Nat) :
    countOpened (List.replicate k Event.closed) = 0 ∧
    countClosed (List.replicate k Event.closed) = k := by
  induction k with
  | zero => exact ⟨rfl, rfl⟩
  | succ n ih =>
    obtain ⟨h1, h2⟩ := ih
    refine ⟨?_, ?_⟩
    · simp only [countOpened] at h1
      simp [List.replicate_succ, countOpened, h1]
    · simp only [countClosed] at h2
      simp [List.replicate_succ, countClosed, h2]

theorem sessionsClosed_finish (base : List Event) (k : Nat) (r : Run) (err : GoError)
    (hk : k ≤ 1) (hr : SessionInv base k r) : sessionsClosed base (r.finish err).1 := by
  obtain ⟨ev, h1, h2, h3, h4, h5⟩ := hr
  have hnew : newEvents base (r.finish err).1 = ev ++ List.replicate k Event.closed := by
    simp only [newEvents, Run.finish, h1, h2, List.append_assoc, List.drop_left]
  obtain ⟨c1, c2⟩ := count_replicate_closed k
  refine ⟨?_, ?_, ?_⟩
  · rw [hnew, sessionsOpenFrom_append, h3]
    exact sessionsOpenFrom_replicate_closed k
  · rw [hnew, countClosed_append, countOpened_append, h4, h5, c1, c2]
    omega
  · rw [hnew, countOpened_append, h4, c1]
    omega

theorem FlowInv_mono (base : List Event) (K1 K2 : Nat) (f : Flow) (hK : K1 ≤ K2)
    (hf : FlowInv base K1 f) : FlowInv base K2 f := by
  cases f with
  | next r =>
    obtain ⟨k, hk, hr⟩ := hf
    exact ⟨k, le_trans hk hK, hr⟩
  | ret r err =>
    obtain ⟨k, hk, hr⟩ := hf
    exact ⟨k, le_trans hk hK, hr⟩

theorem FlowInv_andThen (base : List Event) (K b : Nat) (f : Flow) (g : Run → Flow)
    (hf : FlowInv base K f)
    (hg : ∀ (k : Nat) (r : Run), SessionInv base k r → FlowInv base (k + b) (g r)) :
    FlowInv base (K + b) (f.andThen g) := by
  cases f with
  | next r =>
    obtain ⟨k, hk, hr⟩ := hf
    exact FlowInv_mono base (k + b) (K + b) _ (by omega) (hg k r hr)
  | ret r err =>
    obtain ⟨k, hk, hr⟩ := hf
    exact ⟨k, by omega, hr⟩

theorem openOrReturn_inv (env : Env) (driver conn : String) (base : List Event) (k : Nat)
    (r : Run) (hr : SessionInv base k r) :
    FlowInv base (k + 1) (openOrReturn env driver conn r) := by
  unfold openOrReturn
  cases env.openErr r.trace driver conn with
  | some err => exact ⟨k, by omega, SessionInv_say base k r _ hr⟩
  | none =>
    obtain ⟨ev, h1, h2, h3, h4, h5⟩ := hr
    refine ⟨k + 1, le_refl _, ev ++ [Event.opened driver conn], ?_, ?_, ?_, ?_, ?_⟩
    · simp only [h1, List.append_assoc]
    · simp only [h2, List.replicate_succ]
    · rw [sessionsOpenFrom_append, h3]
      simp [sessionsOpenFrom]
    · rw [countOpened_append, h4]
      rfl
    · rw [countClosed_append, h5]
      rfl

theorem execOrReturn_inv (env : Env) (query : String) (base : List Event) (k : Nat)
    (r : Run) (hr : SessionInv base k r) :
    FlowInv base (k + 0) (execOrReturn env query r) := by
  have h1 := SessionInv_append base k r [Event.exec query] hr (by simp [isSessionEvent])
  unfold execOrReturn
  cases env.execErr r.trace query with
  | some err => exact ⟨k, by omega, SessionInv_say base k _ _ (SessionInv_say base k _ _ h1)⟩
  | none => exact ⟨k, by omega, h1⟩

theorem FlowInv_next (base : List Event) (k : Nat) (r : Run) (hr : SessionInv base k r) :
    FlowInv base (k + 0) (Flow.next r) :=
  ⟨k, by omega, hr⟩

theorem createMysql_inv (env : Env) (argv : connT) (conn : String) (base : List Event)
    (k : Nat) (r : Run) (hr : SessionInv base k r) :
    FlowInv base (k + if argv.Driver = "mysql" then 1 else 0) (createMysql env argv conn r) := by
  unfold createMysql
  split
  · have h1 := openOrReturn_inv env argv.Driver conn base k (r.say "\n")
      (SessionInv_say base k r _ hr)
    refine FlowInv_andThen base (k + 1) 0 _ _ h1 (fun k1 r1 hr1 => ?_)
    refine FlowInv_andThen base (k1 + 0) 0 _ _ ?_ (fun k3 r3 hr3 => ?_)
    · exact execOrReturn_inv env _ base k1 _
        (SessionInv_say base k1 _ _ (SessionInv_say base k1 r1 _ hr1))
    · exact execOrReturn_inv env _ base k3 _ (SessionInv_say base k3 r3 _ hr3)
  · exact FlowInv_next base k r hr

theorem createPostgres_inv (env : Env) (ToUpper : String → String) (argv : connT)
    (conn : String) (base : List Event) (k : Nat) (r : Run) (hr : SessionInv base k r) :
    FlowInv base (k + if argv.Driver = "postgres" then 1 else 0)
      (createPostgres env ToUpper argv conn r) := by
  unfold createPostgres
  split
  · have h1 := openOrReturn_inv env argv.Driver conn base k (r.say "\n")
      (SessionInv_say base k r _ hr)
    refine FlowInv_andThen base (k + 1) 0 _ _ h1 (fun k1 r1 hr1 => ?_)
    exact execOrReturn_inv env _ base k1 _
      (SessionInv_say base k1 _ _ (SessionInv_say base k1 r1 _ hr1))
  · exact FlowInv_next base k r hr

theorem createSqlite_inv (env : Env) (argv : connT) (conn : String) (base : List Event)
    (k : Nat) (r : Run) (hr : SessionInv base k r) :
    FlowInv base (k + if argv.Driver = "sqlite3" then 1 else 0)
      (createSqlite env argv conn r) := by
  unfold createSqlite
  split
  · exact openOrReturn_inv env argv.Driver conn base k r hr
  · exact FlowInv_next base k r hr

theorem driver_blocks_le_one (driver : String) :
    ((0 + if driver = "mysql" then 1 else 0) + if driver = "postgres" then 1 else 0)
      + (if driver = "sqlite3" then 1 else 0) ≤ 1 := by
  by_cases h1 : driver = "mysql"
  · subst h1; decide
  · by_cases h2 : driver = "postgres"
    · subst h2; decide
    · simp only [h1, h2, if_false]
      split <;> omega

theorem sessionsClosed_of_flow (base : List Event) (K : Nat) (f : Flow) (text : Run → String)
    (hK : K ≤ 1) (hf : FlowInv base K f) :
    sessionsClosed base
      (match f with
        | .ret r err => r.finish err
        | .next r => (r.say (text r)).finish none).1 := by
  cases f with
  | next r =>
    obtain ⟨k, hk, hr⟩ := hf
    exact sessionsClosed_finish base k _ none (by omega) (SessionInv_say base k r _ hr)
  | ret r err =>
    obtain ⟨k, hk, hr⟩ := hf
    exact sessionsClosed_finish base k r err (by omega) hr

theorem sessionsClosed_refl (trace : List Event) : sessionsClosed trace trace := by
  simp [sessionsClosed, newEvents, sessionsOpenFrom, countOpened, countClosed]

theorem validate_inv (env : Env) (argv : connT) (flag : Bool) (base : List Event) :
    match validate env argv flag { trace := base ++ [Event.out "\n"], deferred := [] } with
    | .inl result => sessionsClosed base result.1
    | .inr (r1, _) => SessionInv base 0 r1 := by
  have h0 : SessionInv base 0 { trace := base ++ [Event.out "\n"], deferred := [] } :=
    SessionInv_start base [Event.out "\n"] (by simp [isSessionEvent])
  unfold validate
  cases CheckDriver argv.Driver with
  | some err =>
    exact sessionsClosed_finish base 0 _ none (by omega)
      (SessionInv_say base 0 _ _ (SessionInv_say base 0 _ _ h0))
  | none =>
    simp only
    cases (BuildConn argv flag).2 with
    | some err =>
      exact sessionsClosed_finish base 0 _ _ (by omega) (SessionInv_say base 0 _ _ h0)
    | none => exact SessionInv_say base 0 _ _ h0

theorem createCom_sessionsClosed (env : Env) (ToUpper : String → String) (argv : connT)
    (trace : List Event) : sessionsClosed trace (createCom env ToUpper argv trace).1 := by
  unfold createCom
  split
  · have hv := validate_inv env argv false trace
    split
    · rename_i result heq
      rw [heq] at hv
      exact hv
    · rename_i r1 conn heq
      rw [heq] at hv
      have h1 := createMysql_inv env argv conn trace 0 _ (SessionInv_say trace 0 r1
        (env.color.Dim conn ++ "\n") hv)
      have h2 := FlowInv_andThen trace _ _ _ _ h1
        (createPostgres_inv env ToUpper argv conn trace)
      have h3 := FlowInv_andThen trace _ _ _ _ h2 (createSqlite_inv env argv conn trace)
      exact sessionsClosed_of_flow trace _ _ (fun r => doneText env r.trace)
        (driver_blocks_le_one argv.Driver) h3
  · exact sessionsClosed_refl trace

theorem dropStatement_inv (env : Env) (driver : String) (argv : connT) (base : List Event)
    (k : Nat) (r : Run) (hr : SessionInv base k r) :
    FlowInv base (k + 0) (dropStatement env driver argv r) := by
  unfold dropStatement
  split
  · exact execOrReturn_inv env _ base k _
      (SessionInv_say base k _ _ (SessionInv_say base k r _ hr))
  · exact FlowInv_next base k r hr

theorem dropSqlite_inv (env : Env) (argv : connT) (conn : String) (base : List Event)
    (k : Nat) (r : Run) (hr : SessionInv base k r) :
    FlowInv base (k + 0) (dropSqlite env argv conn r) := by
  unfold dropSqlite
  split
  · cases env.removeErr r.trace conn with
    | some err =>
      exact ⟨k, by omega, SessionInv_say base k _ _ (SessionInv_say base k r _ hr)⟩
    | none =>
      exact ⟨k, by omega,
        SessionInv_append base k r [Event.removed conn] hr (by simp [isSessionEvent])⟩
  · exact FlowInv_next base k r hr

theorem dropCom_sessionsClosed (env : Env) (argv : connT) (trace : List Event) :
    sessionsClosed trace (dropCom env argv trace).1 := by
  unfold dropCom
  split
  · have hv := validate_inv env argv false trace
    split
    · rename_i result heq
      rw [heq] at hv
      exact hv
    · rename_i r1 conn heq
      rw [heq] at hv
      have h1 := openOrReturn_inv env argv.Driver conn trace 0 _ (SessionInv_say trace 0 r1
        (env.color.Dim conn ++ "\n\n") hv)
      have h2 := FlowInv_andThen trace _ _ _ _ h1 (dropStatement_inv env "mysql" argv trace)
      have h3 := FlowInv_andThen trace _ _ _ _ h2 (dropStatement_inv env "postgres" argv trace)
      have h4 := FlowInv_andThen trace _ _ _ _ h3 (dropSqlite_inv env argv conn trace)
      exact sessionsClosed_of_flow trace _ _ (fun r => doneText env r.trace) (by omega) h4
  · exact sessionsClosed_refl trace

theorem queryOrReturn_inv (env : Env) (query : String) (ret : Option Rows)
    (base : List Event) (k : Nat) (r : Run) (hr : SessionInv base k r) :
    FlowInv base k (queryOrReturn env query r ret).1 ∧
    (∀ r2 ret2, queryOrReturn env query r ret = (Flow.next r2, ret2) → ret2.isSome = true) := by
  have h1 := SessionInv_append base k r [Event.query query] hr (by simp [isSessionEvent])
  unfold queryOrReturn
  cases env.queryRes r.trace query with
  | error err =>
    refine ⟨⟨k, le_refl _, SessionInv_say base k _ _ (SessionInv_say base k _ _ h1)⟩, ?_⟩
    intro r2 ret2 h
    simp at h
  | ok rows =>
    refine ⟨⟨k, le_refl _, h1⟩, ?_⟩
    intro r2 ret2 h
    simp only [Prod.mk.injEq] at h
    rw [← h.2]
    rfl

theorem describeShort_inv (env : Env) (argv : connT) (ret : Option Rows)
    (base : List Event) (k : Nat) (r : Run) (hr : SessionInv base k r) :
    FlowInv base k (describeShort env argv r ret).1 ∧
    (∀ r2 ret2, describeShort env argv r ret = (Flow.next r2, ret2) →
      (ret2.isSome = true ∨ (ret2 = ret ∧ ¬ (argv.Driver = "mysql" ∨ argv.Driver = "sqlite3")))) := by
  unfold describeShort
  split
  · obtain ⟨h1, h2⟩ := queryOrReturn_inv env (Sprintf "DESCRIBE %v" [.str argv.Table]) ret
      base k _ (SessionInv_say base k r _ hr)
    exact ⟨h1, fun r2 ret2 h => Or.inl (h2 r2 ret2 h)⟩
  · rename_i hd
    refine ⟨⟨k, le_refl _, hr⟩, ?_⟩
    intro r2 ret2 h
    simp only [Prod.mk.injEq] at h
    exact Or.inr ⟨h.2.symm, hd⟩

theorem describeCatalog_inv (env : Env) (argv : connT) (ret : Option Rows)
    (base : List Event) (k : Nat) (r : Run) (hr : SessionInv base k r) :
    FlowInv base k (describeCatalog env argv r ret).1 ∧
    (∀ r2 ret2, describeCatalog env argv r ret = (Flow.next r2, ret2) →
      (ret2.isSome = true ∨ (ret2 = ret ∧ ¬ argv.Driver = "postgres"))) := by
  unfold describeCatalog
  split
  · obtain ⟨h1, h2⟩ := queryOrReturn_inv env _ ret base k _ (SessionInv_say base k r _ hr)
    exact ⟨h1, fun r2 ret2 h => Or.inl (h2 r2 ret2 h)⟩
  · rename_i hd
    refine ⟨⟨k, le_refl _, hr⟩, ?_⟩
    intro r2 ret2 h
    simp only [Prod.mk.injEq] at h
    exact Or.inr ⟨h.2.symm, hd⟩

theorem describeRender_ok (env : Env) (ret : Option Rows) (base : List Event) (k : Nat)
    (r : Run) (hr : SessionInv base k r) (hk : k ≤ 1) (hret : ret.isSome = true) :
    ∃ res, describeRender env r ret = .ok res ∧ sessionsClosed base res.1 := by
  obtain ⟨rows, rfl⟩ := Option.isSome_iff_exists.mp hret
  obtain ⟨rrm, hrrm⟩ := RawResultMap_total rows
  refine ⟨_, by simp only [describeRender, hrrm]; rfl, ?_⟩
  apply sessionsClosed_finish base k _ none hk
  apply SessionInv_say
  apply SessionInv_append base k _ _ _ (by simp [isSessionEvent])
  exact SessionInv_say base k _ _ (SessionInv_say base k r _ hr)

theorem validate_inr_driver (env : Env) (argv : connT) (flag : Bool) (r r1 : Run)
    (conn : String) (h : validate env argv flag r = .inr (r1, conn)) :
    CheckDriver argv.Driver = none := by
  unfold validate at h
  cases hc : CheckDriver argv.Driver with
  | none => rfl
  | some err => simp [hc] at h

theorem describeCom_sessionsClosed (env : Env) (argv : connT) (trace : List Event) :
    ∃ res, describeCom env argv trace = .ok res ∧ sessionsClosed trace res.1 := by
  unfold describeCom
  split
  · have hv := validate_inv env argv true trace
    split
    · rename_i result heq
      rw [heq] at hv
      exact ⟨result, rfl, hv⟩
    · rename_i r1 conn heq
      rw [heq] at hv
      have hdrv := (CheckDriver_eq_none_iff argv.Driver).mp
        (validate_inr_driver env argv true _ r1 conn heq)
      have h1 := openOrReturn_inv env argv.Driver conn trace 0 _ (SessionInv_say trace 0 r1
        (env.color.Dim conn ++ "\n\n") hv)
      dsimp only
      split
      · rename_i r err hopen
        rw [hopen] at h1
        obtain ⟨k, hk, hr⟩ := h1
        exact ⟨_, rfl, sessionsClosed_finish trace k r err hk hr⟩
      · rename_i r3 hopen
        rw [hopen] at h1
        obtain ⟨k, hk, hr3⟩ := h1
        have hr4 := SessionInv_say trace k r3 (env.color.Bold AppSQLExec ++ "\n") hr3
        obtain ⟨hs1, hs2⟩ := describeShort_inv env argv none trace k _ hr4
        split
        · rename_i r err x hshort
          rw [hshort] at hs1
          obtain ⟨k2, hk2, hr⟩ := hs1
          exact ⟨_, rfl, sessionsClosed_finish trace k2 r err (by omega) hr⟩
        · rename_i r5 ret1 hshort
          rw [hshort] at hs1
          obtain ⟨k2, hk2, hr5⟩ := hs1
          have hret1 := hs2 r5 ret1 hshort
          obtain ⟨hc1, hc2⟩ := describeCatalog_inv env argv ret1 trace k2 r5 hr5
          split
          · rename_i r err x hcat
            rw [hcat] at hc1
            obtain ⟨k3, hk3, hr⟩ := hc1
            exact ⟨_, rfl, sessionsClosed_finish trace k3 r err (by omega) hr⟩
          · rename_i r6 ret2 hcat
            rw [hcat] at hc1
            obtain ⟨k3, hk3, hr6⟩ := hc1
            have hret2 : ret2.isSome = true := by
              rcases hc2 r6 ret2 hcat with h | ⟨h, hnpg⟩
              · exact h
              · rcases hret1 with h1 | ⟨_, hnms⟩
                · rw [h]; exact h1
                · exfalso
                  rcases hdrv with hd | hd | hd
                  · exact hnms (Or.inr hd)
                  · exact hnms (Or.inl hd)
                  · exact hnpg hd
            exact describeRender_ok env ret2 trace k3 r6 hr6 (by omega) hret2
  · exact ⟨(trace, none), rfl, sessionsClosed_refl trace⟩

theorem extendsNeutrally_refl (t : List Event) : extendsNeutrally t t :=
  ⟨[], by simp, by simp⟩

theorem extendsNeutrally_step (t mid : List Event)
    (hmid : ∀ e ∈ mid, isSessionEvent e = false) : extendsNeutrally t (t ++ mid) :=
  ⟨mid, rfl, hmid⟩

theorem extendsNeutrally_trans {a b c : List Event} (h1 : extendsNeutrally a b)
    (h2 : extendsNeutrally b c) : extendsNeutrally a c := by
  obtain ⟨xs, hx1, hx2⟩ := h1
  obtain ⟨ys, hy1, hy2⟩ := h2
  refine ⟨xs ++ ys, by rw [hy1, hx1, List.append_assoc], ?_⟩
  intro e he
  rcases List.mem_append.mp he with h | h
  · exact hx2 e h
  · exact hy2 e h

theorem neutral_map_out (texts : List String) :
    ∀ e ∈ texts.map Event.out, isSessionEvent e = false := by
  intro e he
  obtain ⟨text, _, rfl⟩ := List.mem_map.mp he
  rfl

theorem sqlLoop_events (env : Env) (driver : String) (fuel : Nat) :
    ∀ (stdin : List String) (trace t : List Event) (rest : List String),
      sqlLoop env driver fuel stdin trace = .ok (t, rest) → extendsNeutrally trace t := by
  induction fuel with
  | zero =>
    intro stdin trace t rest h
    simp [sqlLoop] at h
  | succ f ih =>
    intro stdin trace t rest h
    have hq : ("" : String) ≠ "q" := by decide
    simp only [sqlLoop, hq, if_false] at h
    split at h
    · simp only [Except.ok.injEq, Prod.mk.injEq] at h
      rw [← h.1]
      exact extendsNeutrally_step trace _ (by simp [isSessionEvent])
    · split at h
      · refine extendsNeutrally_trans ?_ (ih _ _ _ _ h)
        refine extendsNeutrally_trans (extendsNeutrally_trans
          (extendsNeutrally_step trace _ (by simp [isSessionEvent]))
          (extendsNeutrally_step _ _ (by simp [isSessionEvent])))
          (extendsNeutrally_step _ _ (by simp [isSessionEvent]))
      · split at h
        · simp at h
        · refine extendsNeutrally_trans ?_ (ih _ _ _ _ h)
          refine extendsNeutrally_trans (extendsNeutrally_trans (extendsNeutrally_trans
            (extendsNeutrally_trans
              (extendsNeutrally_step trace _ (by simp [isSessionEvent]))
              (extendsNeutrally_step _ _ (by simp [isSessionEvent])))
            (extendsNeutrally_step _ _ ?_))
            (extendsNeutrally_step _ _ (neutral_map_out _)))
            (extendsNeutrally_step _ _ (by simp [isSessionEvent]))
          intro e he
          split at he
          · simp only [List.mem_singleton] at he
            rw [he]; rfl
          · simp at he

theorem sqlCom_sessionsClosed (env : Env) (argv : connT) (fuel : Nat) (stdin : List String)
    (trace : List Event) (res : List Event × List String × GoError)
    (h : sqlCom env argv fuel stdin trace = .ok res) : sessionsClosed trace res.1 := by
  unfold sqlCom at h
  split at h
  · have hv := validate_inv env argv true trace
    split at h
    · rename_i result heq
      rw [heq] at hv
      simp only [Except.ok.injEq] at h
      rw [← h]
      exact hv
    · rename_i r1 conn heq
      rw [heq] at hv
      have h1 := openOrReturn_inv env argv.Driver conn trace 0 _ (SessionInv_say trace 0 r1
        (env.color.Dim conn ++ "\n\n") hv)
      dsimp only at h
      split at h
      · rename_i r err hopen
        rw [hopen] at h1
        obtain ⟨k, hk, hr⟩ := h1
        simp only [Except.ok.injEq] at h
        rw [← h]
        exact sessionsClosed_finish trace k r err hk hr
      · rename_i r3 hopen
        rw [hopen] at h1
        obtain ⟨k, hk, hr3⟩ := h1
        split at h
        · simp at h
        · rename_i t rest hloop
          simp only [Except.ok.injEq] at h
          rw [← h]
          obtain ⟨xs, hx1, hx2⟩ := sqlLoop_events env argv.Driver fuel stdin r3.trace t rest hloop
          rw [hx1]
          exact sessionsClosed_finish trace k _ none hk (SessionInv_append trace k r3 xs hr3 hx2)
  · simp only [Except.ok.injEq] at h
    rw [← h]
    exact sessionsClosed_refl trace

theorem sqlCom_returns (env : Env) (argv : connT) (fuel : Nat) (trace : List Event)
    (pre : List String) (s : String) (post : List String)
    (hpre : ∀ l ∈ pre, ¬ isSentinel (TrimSpace l)) (hs : isSentinel (TrimSpace s))
    (hfuel : pre.length < fuel) :
    ∃ res, sqlCom env argv fuel (pre ++ s :: post) trace = .ok res := by
  unfold sqlCom
  split
  · split
    · exact ⟨_, rfl⟩
    · dsimp only
      split
      · exact ⟨_, rfl⟩
      · rename_i r3 _
        obtain ⟨t, ht, _⟩ :=
          sqlLoop_until_sentinel env argv.Driver s post hs pre fuel r3.trace hpre hfuel
        rw [ht]
        exact ⟨_, rfl⟩
  · exact ⟨_, rfl⟩

/-- C13: every run of `create`, `drop` and `describe` returns, and every run of
`sql` that returns (as it does when a termination token is read), leaves no
session open: among the events the command added, each `Close` follows an open
that was still open, the number of `Close` calls equals the number of sessions
opened, which is at most one, and no session is open at the end; this holds for
every answer of the driver and the file system, hence on the paths of a failed
statement, a failed removal and the termination token. -/
theorem C13_opened_session_closed_once (env : Env) (ToUpper : String → String)
    (argv : connT) (trace : List Event) (fuel : Nat) (stdin : List String) :
    sessionsClosed trace (createCom env ToUpper argv trace).1 ∧
    sessionsClosed trace (dropCom env argv trace).1 ∧
    (∃ res, describeCom env argv trace = .ok res ∧ sessionsClosed trace res.1) ∧
    (∀ res, sqlCom env argv fuel stdin trace = .ok res → sessionsClosed trace res.1) ∧
    (∀ (pre : List String) (s : String) (post : List String), stdin = pre ++ s :: post →
      (∀ l ∈ pre, ¬ isSentinel (TrimSpace l)) → isSentinel (TrimSpace s) → pre.length < fuel →
      ∃ res, sqlCom env argv fuel stdin trace = .ok res ∧ sessionsClosed trace res.1) := by
  refine ⟨createCom_sessionsClosed env ToUpper argv trace, dropCom_sessionsClosed env argv trace,
    describeCom_sessionsClosed env argv trace,
    fun res h => sqlCom_sessionsClosed env argv fuel stdin trace res h, ?_⟩
  intro pre s post hstdin hpre hs hfuel
  subst hstdin
  obtain ⟨res, hres⟩ := sqlCom_returns env argv fuel trace pre s post hpre hs hfuel
  exact ⟨res, hres, sqlCom_sessionsClosed env argv fuel _ trace res hres⟩

/-- Witness of C13: `create` with a failing `CREATE DATABASE` statement, and
`sql` leaving the loop through the token `q` after one statement. -/
theorem C13_opened_session_closed_once_witness :
    sessionsClosed [] (createCom existsEnv asciiUpper specArgs []).1 ∧
    countOpened (newEvents [] (createCom existsEnv asciiUpper specArgs []).1) = 1 ∧
    ["select 1\n", "q\n"] = ["select 1\n"] ++ "q\n" :: [] ∧
    (∀ l ∈ ["select 1\n"], ¬ isSentinel (TrimSpace l)) ∧ isSentinel (TrimSpace "q\n") ∧
    ["select 1\n"].length < 2 ∧
    (∃ res, sqlCom plainEnv specArgs 2 ["select 1\n", "q\n"] [] = .ok res ∧
      sessionsClosed [] res.1) :=
  ⟨(C13_opened_session_closed_once existsEnv asciiUpper specArgs [] 2 ["select 1\n", "q\n"]).1,
    by decide, rfl, by decide, by decide, by decide,
    (C13_opened_session_closed_once plainEnv asciiUpper specArgs [] 2
      ["select 1\n", "q\n"]).2.2.2.2 ["select 1\n"] "q\n" [] rfl (by decide) (by decide)
      (by decide)⟩

theorem validate_of_accepted (env : Env) (argv : connT) (flag : Bool) (r : Run)
    (h : CheckDriver argv.Driver = none) :
    validate env argv flag r
      = .inr (r.say (env.color.Bold AppConnQuery ++ "\n"), (BuildConn argv flag).1) := by
  have hb : (BuildConn argv flag).2 = none := by
    rcases (CheckDriver_eq_none_iff argv.Driver).mp h with hd | hd | hd <;>
      simp [BuildConn, hd]
  simp only [validate, h, hb]

theorem statements_newEvents (trace xs : List Event) :
    statements (newEvents trace (trace ++ xs)) = statements xs := by
  simp [newEvents]

theorem Sprintf_create_mysql (dbname charset : String) :
    Sprintf "CREATE DATABASE %s CHARACTER SET %s" [.str dbname, .str charset]
      = "CREATE DATABASE " ++ dbname ++ " CHARACTER SET " ++ charset := by
  apply String.ext
  simp [Sprintf, sprintfAux, formatArg]

theorem Sprintf_use (dbname : String) :
    Sprintf "USE %s" [.str dbname] = "USE " ++ dbname := by
  apply String.ext
  simp [Sprintf, sprintfAux, formatArg]

theorem Sprintf_create_postgres (dbname user charset : String) :
    Sprintf "CREATE DATABASE %s OWNER %s ENCODING '%s'" [.str dbname, .str user, .str charset]
      = "CREATE DATABASE " ++ dbname ++ " OWNER " ++ user ++ " ENCODING '" ++ charset ++ "'" := by
  apply String.ext
  simp [Sprintf, sprintfAux, formatArg]

theorem createMysql_skip (env : Env) (argv : connT) (conn : String)
    (h : ¬ argv.Driver = "mysql") : createMysql env argv conn = Flow.next := by
  funext r
  simp only [createMysql, h, if_false]

theorem createPostgres_skip (env : Env) (ToUpper : String → String) (argv : connT)
    (conn : String) (h : ¬ argv.Driver = "postgres") :
    createPostgres env ToUpper argv conn = Flow.next := by
  funext r
  simp only [createPostgres, h, if_false]

theorem createSqlite_skip (env : Env) (argv : connT) (conn : String)
    (h : ¬ argv.Driver = "sqlite3") : createSqlite env argv conn = Flow.next := by
  funext r
  simp only [createSqlite, h, if_false]

theorem Flow_andThen_next (f : Flow) : f.andThen Flow.next = f := by
  cases f <;> rfl

theorem createCom_mysql_statements (env : Env) (ToUpper : String → String) (argv : connT)
    (trace : List Event) (hdb : argv.Dbname.length ≠ 0) (hd : argv.Driver = "mysql") :
    statements (newEvents trace (createCom env ToUpper argv trace).1) =
      if env.openErr (createAtOpen env argv trace) "mysql" (BuildConn argv false).1 = none then
        ("CREATE DATABASE " ++ argv.Dbname ++ " CHARACTER SET " ++ argv.Charset) ::
          (if env.execErr (createAtExec env argv trace
                ("CREATE DATABASE " ++ argv.Dbname ++ " CHARACTER SET " ++ argv.Charset))
              ("CREATE DATABASE " ++ argv.Dbname ++ " CHARACTER SET " ++ argv.Charset) = none
            then ["USE " ++ argv.Dbname] else [])
      else [] := by
  have hc : CheckDriver argv.Driver = none := by rw [hd]; decide
  have h1 : ¬ argv.Driver = "postgres" := by rw [hd]; decide
  have h2 : ¬ argv.Driver = "sqlite3" := by rw [hd]; decide
  have h3 : ¬ ("mysql" = "sqlite3") := by decide
  simp only [createCom, hdb, ne_eq, not_false_eq_true, if_true,
    validate_of_accepted env argv false _ hc, createPostgres_skip env ToUpper argv _ h1,
    createSqlite_skip env argv _ h2, Flow_andThen_next,
    createMysql, createAtOpen, createAtExec, hd, h3, if_false,
    openOrReturn, execOrReturn, Run.say, Sprintf_create_mysql, Sprintf_use,
    List.append_assoc, List.cons_append, List.nil_append, List.append_nil]
  cases hopen : env.openErr (trace ++
      [Event.out "\n", Event.out (env.color.Bold AppConnQuery ++ "\n"),
        Event.out (env.color.Dim (BuildConn argv false).1 ++ "\n"), Event.out "\n"])
      "mysql" (BuildConn argv false).1 with
  | some err =>
    simp [Flow.andThen, Run.finish, newEvents, statements]
  | none =>
    simp only [Flow.andThen, if_true, List.append_assoc, List.cons_append, List.nil_append]
    cases hexec : env.execErr (trace ++
        [Event.out "\n", Event.out (env.color.Bold AppConnQuery ++ "\n"),
          Event.out (env.color.Dim (BuildConn argv false).1 ++ "\n"), Event.out "\n",
          Event.opened "mysql" (BuildConn argv false).1,
          Event.out (env.color.Bold AppSQLExec ++ "\n"),
          Event.out (env.color.Cyan
            ("CREATE DATABASE " ++ argv.Dbname ++ " CHARACTER SET " ++ argv.Charset ++ ";")
              ++ "\n")])
        ("CREATE DATABASE " ++ argv.Dbname ++ " CHARACTER SET " ++ argv.Charset) with
    | some err =>
      simp [Flow.andThen, Run.finish, newEvents, statements]
    | none =>
      simp only [Flow.andThen, if_true, List.append_assoc, List.cons_append, List.nil_append]
      cases env.execErr (trace ++
          [Event.out "\n", Event.out (env.color.Bold AppConnQuery ++ "\n"),
            Event.out (env.color.Dim (BuildConn argv false).1 ++ "\n"), Event.out "\n",
            Event.opened "mysql" (BuildConn argv false).1,
            Event.out (env.color.Bold AppSQLExec ++ "\n"),
            Event.out (env.color.Cyan
              ("CREATE DATABASE " ++ argv.Dbname ++ " CHARACTER SET " ++ argv.Charset ++ ";")
                ++ "\n"),
            Event.exec ("CREATE DATABASE " ++ argv.Dbname ++ " CHARACTER SET " ++ argv.Charset),
            Event.out (env.color.Cyan ("USE " ++ argv.Dbname ++ ";") ++ "\n")])
          ("USE " ++ argv.Dbname) with
      | some err => simp [Run.finish, newEvents, statements]
      | none => simp [Run.finish, newEvents, statements]

theorem createCom_postgres_statements (env : Env) (ToUpper : String → String) (argv : connT)
    (trace : List Event) (hdb : argv.Dbname.length ≠ 0) (hd : argv.Driver = "postgres") :
    statements (newEvents trace (createCom env ToUpper argv trace).1) =
      if env.openErr (createAtOpen env argv trace) "postgres" (BuildConn argv false).1 = none
      then ["CREATE DATABASE " ++ argv.Dbname ++ " OWNER " ++ argv.User ++ " ENCODING '"
              ++ ToUpper argv.Charset ++ "'"]
      else [] := by
  have hc : CheckDriver argv.Driver = none := by rw [hd]; decide
  have h1 : ¬ argv.Driver = "mysql" := by rw [hd]; decide
  have h2 : ¬ argv.Driver = "sqlite3" := by rw [hd]; decide
  have h3 : ¬ ("postgres" = "sqlite3") := by decide
  simp only [createCom, hdb, ne_eq, not_false_eq_true, if_true,
    validate_of_accepted env argv false _ hc, createMysql_skip env argv _ h1,
    createSqlite_skip env argv _ h2, Flow_andThen_next,
    createAtOpen, hd, h3, if_false, Run.say,
    List.append_assoc, List.cons_append, List.nil_append, List.append_nil]
  simp only [Flow.andThen, createPostgres, hd, if_true, openOrReturn, execOrReturn, Run.say,
    Sprintf_create_postgres, List.append_assoc, List.cons_append, List.nil_append,
    List.append_nil]
  cases hopen : env.openErr (trace ++
      [Event.out "\n", Event.out (env.color.Bold AppConnQuery ++ "\n"),
        Event.out (env.color.Dim (BuildConn argv false).1 ++ "\n"), Event.out "\n"])
      "postgres" (BuildConn argv false).1 with
  | some err =>
    simp [Flow.andThen, Run.finish, newEvents, statements]
  | none =>
    simp only [Flow.andThen, if_true, List.append_assoc, List.cons_append, List.nil_append]
    cases env.execErr (trace ++
        [Event.out "\n", Event.out (env.color.Bold AppConnQuery ++ "\n"),
          Event.out (env.color.Dim (BuildConn argv false).1 ++ "\n"), Event.out "\n",
          Event.opened "postgres" (BuildConn argv false).1,
          Event.out (env.color.Bold AppSQLExec ++ "\n"),
          Event.out (env.color.Cyan
            ("CREATE DATABASE " ++ argv.Dbname ++ " OWNER " ++ argv.User ++ " ENCODING '"
              ++ ToUpper argv.Charset ++ "'" ++ ";") ++ "\n")])
        ("CREATE DATABASE " ++ argv.Dbname ++ " OWNER " ++ argv.User ++ " ENCODING '"
              ++ ToUpper argv.Charset ++ "'") with
    | some err => simp [Run.finish, newEvents, statements]
    | none => simp [Run.finish, newEvents, statements]

theorem createCom_sqlite_events (env : Env) (ToUpper : String → String) (argv : connT)
    (trace : List Event) (hdb : argv.Dbname.length ≠ 0) (hd : argv.Driver = "sqlite3") :
    statements (newEvents trace (createCom env ToUpper argv trace).1) = [] ∧
    countOpened (newEvents trace (createCom env ToUpper argv trace).1) =
      if env.openErr (createAtOpen env argv trace) "sqlite3" (BuildConn argv false).1 = none
      then 1 else 0 := by
  have hc : CheckDriver argv.Driver = none := by rw [hd]; decide
  have h1 : ¬ argv.Driver = "mysql" := by rw [hd]; decide
  have h2 : ¬ argv.Driver = "postgres" := by rw [hd]; decide
  simp only [createCom, hdb, ne_eq, not_false_eq_true, if_true,
    validate_of_accepted env argv false _ hc, createMysql_skip env argv _ h1,
    createPostgres_skip env ToUpper argv _ h2, Flow.andThen,
    createSqlite, createAtOpen, hd, if_false,
    openOrReturn, Run.say,
    List.append_assoc, List.cons_append, List.nil_append, List.append_nil]
  cases hopen : env.openErr (trace ++
      [Event.out "\n", Event.out (env.color.Bold AppConnQuery ++ "\n"),
        Event.out (env.color.Dim (BuildConn argv false).1 ++ "\n")])
      "sqlite3" (BuildConn argv false).1 with
  | some err =>
    simp [Run.finish, newEvents, statements, countOpened]
  | none =>
    simp [Run.finish, newEvents, statements, countOpened]

/-- C11: for every record with a non-empty database name, the statements
`create` submits to the session it opened are: for `mysql`,
`CREATE DATABASE <Dbname> CHARACTER SET <Charset>` and then, only if that
statement succeeded, `USE <Dbname>`; for `postgres`, the single statement
`CREATE DATABASE <Dbname> OWNER <User> ENCODING '<Charset in upper case>'`; for
`sqlite3` no statement at all, the session only being opened; a failed statement
ends the sequence. The statements are those of the opened session: a run whose
`sql.Open` returns an error has left the function before any of them. -/
theorem C11_create_statements_by_driver (env : Env) (ToUpper : String → String)
    (argv : connT) (trace : List Event) (hdb : argv.Dbname.length ≠ 0) :
    (argv.Driver = "mysql" →
      statements (newEvents trace (createCom env ToUpper argv trace).1) =
        if env.openErr (createAtOpen env argv trace) "mysql" (BuildConn argv false).1 = none
        then
          ("CREATE DATABASE " ++ argv.Dbname ++ " CHARACTER SET " ++ argv.Charset) ::
            (if env.execErr (createAtExec env argv trace
                  ("CREATE DATABASE " ++ argv.Dbname ++ " CHARACTER SET " ++ argv.Charset))
                ("CREATE DATABASE " ++ argv.Dbname ++ " CHARACTER SET " ++ argv.Charset) = none
              then ["USE " ++ argv.Dbname] else [])
        else []) ∧
    (argv.Driver = "postgres" →
      statements (newEvents trace (createCom env ToUpper argv trace).1) =
        if env.openErr (createAtOpen env argv trace) "postgres" (BuildConn argv false).1 = none
        then ["CREATE DATABASE " ++ argv.Dbname ++ " OWNER " ++ argv.User ++ " ENCODING '"
                ++ ToUpper argv.Charset ++ "'"]
        else []) ∧
    (argv.Driver = "sqlite3" →
      statements (newEvents trace (createCom env ToUpper argv trace).1) = [] ∧
      countOpened (newEvents trace (createCom env ToUpper argv trace).1) =
        if env.openErr (createAtOpen env argv trace) "sqlite3" (BuildConn argv false).1 = none
        then 1 else 0) :=
  ⟨createCom_mysql_statements env ToUpper argv trace hdb,
    createCom_postgres_statements env ToUpper argv trace hdb,
    createCom_sqlite_events env ToUpper argv trace hdb⟩

/-- Witness of C11: the spec's mysql record in a world where every call
succeeds, the same record where `CREATE DATABASE` fails, and a postgres record. -/
theorem C11_create_statements_by_driver_witness :
    specArgs.Dbname.length ≠ 0 ∧ specArgs.Driver = "mysql" ∧ pgArgs.Driver = "postgres" ∧
    statements (newEvents [] (createCom plainEnv asciiUpper specArgs []).1)
      = ["CREATE DATABASE db_new CHARACTER SET utf8", "USE db_new"] ∧
    statements (newEvents [] (createCom existsEnv asciiUpper specArgs []).1)
      = ["CREATE DATABASE db_new CHARACTER SET utf8"] ∧
    statements (newEvents [] (createCom plainEnv asciiUpper pgArgs []).1)
      = ["CREATE DATABASE db_new OWNER root ENCODING 'UTF8'"] :=
  ⟨by decide, rfl, rfl,
    by
      rw [(C11_create_statements_by_driver plainEnv asciiUpper specArgs [] (by decide)).1 rfl]
      decide,
    by
      rw [(C11_create_statements_by_driver existsEnv asciiUpper specArgs [] (by decide)).1 rfl]
      decide,
    by
      rw [(C11_create_statements_by_driver plainEnv asciiUpper pgArgs [] (by decide)).2.1 rfl]
      decide⟩

end Mig
